import Mathlib

/-!
Verification of the XGES bidirectional converter (encoder.go, the decoder
and the schema declarations) against its natural-language specification.

Strings are embedded as `List Char`.  The Go code's `strings.ReplaceAll`
calls all use one- or two-character patterns, embedded below as `replace1`
and `replace2`.  `float64` arithmetic on times and rates is idealized as
exact rational arithmetic (the spec itself notes that float round-tripping
is approximate); `uint64` cursor arithmetic is embedded as `Nat` with an
explicit `% 2^64` at every addition the Go code performs on `uint64`.
The XML (un)marshaling facility is out of scope per the spec; encoding is
embedded down to the sink document tree (`GES` structure) and decoding up
from it.
-/

namespace XGES

/-- Strings as lists of characters. -/
abbrev Str := List Char

/-- Converts a Lean string literal to the `List Char` representation. -/
def strL (s : String) : Str := s.toList

/-- `2^64`, the modulus of Go's `uint64` arithmetic. -/
def u64 : ℕ := 18446744073709551616

/-- One uint64 addition as Go performs it (wrapping at `2^64`). -/
def addU64 (a b : ℕ) : ℕ := (a + b) % u64

/-- Embeds Go's `strings.ReplaceAll(s, pat, rep)` for a one-character
pattern `a`: every occurrence of `a` is replaced by `rep`, left to right,
and the replacement text is not rescanned. -/
def replace1 (a : Char) (rep : Str) : Str → Str
  | [] => []
  | c :: rest => if c = a then rep ++ replace1 a rep rest else c :: replace1 a rep rest

/-- Embeds Go's `strings.ReplaceAll(s, pat, rep)` for a two-character
pattern `a b`: leftmost non-overlapping occurrences are replaced by `rep`,
and the replacement text is not rescanned. -/
def replace2 (a b : Char) (rep : Str) : Str → Str
  | [] => []
  | [c] => [c]
  | c1 :: c2 :: rest =>
    if c1 = a ∧ c2 = b then rep ++ replace2 a b rep rest
    else c1 :: replace2 a b rep (c2 :: rest)

namespace Encoder

/-- `Encoder.escapeGstString` (encoder.go): prefixes backslash, double
quote, space and comma each with a backslash, backslash first. -/
def escapeGstString (s : Str) : Str :=
  replace1 ',' ['\\', ',']
    (replace1 ' ' ['\\', ' ']
      (replace1 '"' ['\\', '"']
        (replace1 '\\' ['\\', '\\'] s)))

end Encoder

namespace Decoder

/-- `Decoder.unescapeGstString` (decoder.go): rewrites `\ `, `\,` and `\"`
back to the bare character, in that order.  Note that the source performs
no rewrite for `\\`. -/
def unescapeGstString (s : Str) : Str :=
  replace2 '\\' '"' ['"']
    (replace2 '\\' ',' [',']
      (replace2 '\\' ' ' [' ']
        s))

end Decoder

/-- The alphabet named by claim C2: ASCII alphanumerics, backslash, double
quote, space and comma. -/
def C2Alphabet (c : Char) : Prop :=
  c.isAlphanum = true ∨ c = '\\' ∨ c = '"' ∨ c = ' ' ∨ c = ','

instance (c : Char) : Decidable (C2Alphabet c) := by
  unfold C2Alphabet; infer_instance

/-- The characters the encoder escapes other than the backslash itself. -/
def escSpecial (c : Char) : Prop := c = '"' ∨ c = ' ' ∨ c = ','

instance (c : Char) : Decidable (escSpecial c) := by
  unfold escSpecial; infer_instance

/-- Per-character form of the escape map on backslash-free input. -/
def escChar (c : Char) : Str := if escSpecial c then ['\\', c] else [c]

lemma replace1_eq_self {a : Char} {rep : Str} {s : Str} (h : a ∉ s) :
    replace1 a rep s = s := by
  induction s with
  | nil => rfl
  | cons c rest ih =>
    simp only [List.mem_cons, not_or] at h
    simp [replace1, Ne.symm h.1, ih h.2]

/-- On backslash-free input the escape function acts independently,
character by character: each of quote, space and comma is prefixed with a
backslash. -/
lemma escape_eq_flatMap {s : Str} (h : '\\' ∉ s) :
    Encoder.escapeGstString s =
      s.flatMap (fun c => if escSpecial c then ['\\', c] else [c]) := by
  unfold Encoder.escapeGstString
  rw [replace1_eq_self h]
  induction s with
  | nil => rfl
  | cons c rest ih =>
    simp only [List.mem_cons, not_or] at h
    have ihr := ih h.2
    by_cases h1 : c = '"'
    · subst h1
      simp [replace1, List.flatMap_cons, escChar, escSpecial, ihr]
    · by_cases h2 : c = ' '
      · subst h2
        simp [replace1, List.flatMap_cons, escChar, escSpecial, ihr]
      · by_cases h3 : c = ','
        · subst h3
          simp [replace1, List.flatMap_cons, escChar, escSpecial, ihr]
        · simp [replace1, h1, h2, h3, List.flatMap_cons, escChar, escSpecial, ihr]

lemma replace2_cons_head {x c : Char} {rep L : Str} (hc : c ≠ '\\') :
    replace2 '\\' x rep (c :: L) = c :: replace2 '\\' x rep L := by
  cases L with
  | nil => simp [replace2]
  | cons d L' => simp [replace2, hc]

lemma replace2_bs_match {x : Char} {rep L : Str} :
    replace2 '\\' x rep ('\\' :: x :: L) = rep ++ replace2 '\\' x rep L := by
  simp [replace2]

lemma replace2_bs_other {x c : Char} {rep L : Str} (hcx : c ≠ x) :
    replace2 '\\' x rep ('\\' :: c :: L) = '\\' :: replace2 '\\' x rep (c :: L) := by
  simp [replace2, hcx]

/-- One un-escape pass `replace2 '\\' x [x]` applied to a backslash-free
string escaped character-by-character with escape set `S`: the escape of
`x` is stripped and the escapes of the other characters survive. -/
lemma replace2_unescape_pass (S : Char → Prop) [DecidablePred S] (x : Char)
    {t : Str} (ht : '\\' ∉ t) :
    replace2 '\\' x [x]
        (t.flatMap (fun c => if S c then ['\\', c] else [c])) =
      t.flatMap (fun c => if S c ∧ c ≠ x then ['\\', c] else [c]) := by
  induction t with
  | nil => rfl
  | cons c rest ih =>
    simp only [List.mem_cons, not_or] at ht
    have ihr := ih ht.2
    have hcb : c ≠ '\\' := fun hh => ht.1 hh.symm
    rw [List.flatMap_cons, List.flatMap_cons]
    by_cases hc : S c
    · by_cases hcx : c = x
      · subst hcx
        rw [if_pos hc, if_neg (by simp [hc])]
        simpa [replace2_bs_match] using ihr
      · rw [if_pos hc, if_pos ⟨hc, hcx⟩]
        simpa [replace2_bs_other hcx, replace2_cons_head hcb] using ihr
    · rw [if_neg hc, if_neg (by simp [hc])]
      simpa [replace2_cons_head hcb] using ihr

/-- The three decode passes undo the three escapes on backslash-free
input. -/
lemma unescape_escape {s : Str} (h : '\\' ∉ s) :
    Decoder.unescapeGstString (Encoder.escapeGstString s) = s := by
  rw [escape_eq_flatMap h]
  unfold Decoder.unescapeGstString
  have e1 := replace2_unescape_pass escSpecial ' ' h
  rw [e1]
  have e2 := replace2_unescape_pass (fun c => escSpecial c ∧ c ≠ ' ') ',' h
  rw [e2]
  have e3 := replace2_unescape_pass
    (fun c => (escSpecial c ∧ c ≠ ' ') ∧ c ≠ ',') '"' h
  rw [e3]
  have : ∀ c ∈ s,
      (if ((escSpecial c ∧ c ≠ ' ') ∧ c ≠ ',') ∧ c ≠ '"' then ['\\', c] else [c]) =
        [c] := by
    intro c _
    rw [if_neg]
    rintro ⟨⟨⟨hS, hsp⟩, hco⟩, hq⟩
    rcases hS with h | h | h
    · exact hq h
    · exact hsp h
    · exact hco h
  rw [List.flatMap_congr this, List.flatMap_singleton']

/-- C2, counterexample: a lone backslash is in the claim's alphabet, its
escape is `\\`, but the decoder performs no rewrite for `\\`, so the
round trip fails on it. -/
theorem C2_counterexample :
    C2Alphabet '\\' ∧
      Decoder.unescapeGstString (Encoder.escapeGstString ['\\']) = ['\\', '\\'] ∧
      Decoder.unescapeGstString (Encoder.escapeGstString ['\\']) ≠ ['\\'] := by
  refine ⟨by decide, by decide, by decide⟩

/-- C2, amended: over strings built from ASCII alphanumerics, double
quote, space and comma (no backslash), escaping prefixes each occurrence
of double quote, space and comma with a backslash, decoding reverses
exactly the three sequences backslash-space, backslash-comma and
backslash-quote, and the round trip is the identity. -/
theorem C2_escape_unescape (s : Str)
    (h : ∀ c ∈ s, C2Alphabet c ∧ c ≠ '\\') :
    Encoder.escapeGstString s = s.flatMap escChar ∧
      Decoder.unescapeGstString (Encoder.escapeGstString s) = s := by
  have hbs : '\\' ∉ s := fun hmem => (h _ hmem).2 rfl
  refine ⟨?_, unescape_escape hbs⟩
  rw [escape_eq_flatMap hbs]
  exact List.flatMap_congr fun c _ => rfl

/-- Witness for C2: the amended round trip evaluated on `a b,"c`. -/
theorem C2_escape_unescape_witness :
    (∀ c ∈ strL ("a b,\"c"), C2Alphabet c ∧ c ≠ '\\') ∧
      Decoder.unescapeGstString (Encoder.escapeGstString (strL ("a b,\"c"))) =
        strL ("a b,\"c") :=
  ⟨by decide, (C2_escape_unescape (strL ("a b,\"c")) (by decide)).2⟩

/-! ### The structure-string scanners

The decoder locates fields with Go regular expressions.  Each regex used
is a literal key followed by an alternation `(?:"([^"]+)"|(BARE+))`, or
the framerate fraction pattern.  RE2 finds the leftmost position where
the whole pattern matches and prefers the first alternative; that is
embedded as a character-by-character scan that at each position tries the
quoted branch, then the bare branch, and on failure moves one character
right. -/

/-- Whitespace class of Go's regexp `\s`. -/
def isSpaceGo (c : Char) : Bool :=
  c = ' ' || c = '\t' || c = '\n' || c = '\r' || c = '\x0b' || c = '\x0c'

/-- `strStarts pat s` is true when `pat` is an initial segment of `s`. -/
def strStarts : Str → Str → Bool
  | [], _ => true
  | _ :: _, [] => false
  | p :: ps, c :: cs => p == c && strStarts ps cs

/-- The quoted branch `"([^"]+)"` at the current position: an opening
quote, a maximal nonempty run of non-quote characters, a closing quote. -/
def tryQuoted : Str → Option Str
  | [] => none
  | c :: t =>
    if c = '"' then
      let run := t.takeWhile (fun c => c != '"')
      if run ≠ [] ∧ run.length < t.length then some run else none
    else none

/-- The bare branch: a maximal nonempty run of characters not in the
stop class. -/
def tryBare (stop : Char → Bool) (s : Str) : Option Str :=
  let run := s.takeWhile (fun c => !stop c)
  if run = [] then none else some run

/-- A generic leftmost-match scan: try the single-position matcher at
every position, left to right. -/
def scanA {α : Type} (t : Str → Option α) : Str → Option α
  | [] => none
  | c :: rest =>
    match t (c :: rest) with
    | some r => some r
    | none => scanA t rest

lemma scanA_cons {α : Type} (t : Str → Option α) (c : Char) (rest : Str) :
    scanA t (c :: rest) =
      match t (c :: rest) with
      | some r => some r
      | none => scanA t rest := by
  rw [scanA]

/-- One position of the regex `pat(?:"([^"]+)"|(BARE+))`. -/
def tryKeyValue (stop : Char → Bool) (pat : Str) (s : Str) : Option Str :=
  if strStarts pat s then
    match tryQuoted (s.drop pat.length) with
    | some v => some v
    | none => tryBare stop (s.drop pat.length)
  else none

/-- Leftmost match of `pat(?:"([^"]+)"|(BARE+))`, returning the raw
captured value. -/
def scanValue (stop : Char → Bool) (pat : Str) (s : Str) : Option Str :=
  scanA (tryKeyValue stop pat) s

/-- `mismatchIn pat l = true` certifies that `pat` fails to be a prefix
of `l ++ anything`: a mismatch occurs inside `l` itself. -/
def mismatchIn : Str → Str → Bool
  | [], _ => false
  | _ :: _, [] => false
  | p :: ps, c :: cs => if p == c then mismatchIn ps cs else true

/-- `mismatchChain pat pre = true` certifies that no suffix position of
`pre` can start a match of `pat`, whatever follows `pre`. -/
def mismatchChain (pat : Str) : Str → Bool
  | [] => true
  | c :: rest => mismatchIn pat (c :: rest) && mismatchChain pat rest

lemma strStarts_false_of_mismatchIn {pat l : Str} (h : mismatchIn pat l = true)
    (s : Str) : strStarts pat (l ++ s) = false := by
  induction pat generalizing l with
  | nil => cases l <;> simp [mismatchIn] at h
  | cons p ps ih =>
    cases l with
    | nil => simp [mismatchIn] at h
    | cons c cs =>
      by_cases hpc : p = c
      · simp only [mismatchIn, hpc, beq_self_eq_true, if_true] at h
        simp [strStarts, hpc, ih h]
      · simp [strStarts, hpc]

lemma strStarts_self_append (pat s : Str) : strStarts pat (pat ++ s) = true := by
  induction pat with
  | nil => rfl
  | cons p ps ih => simp [strStarts, ih]

lemma scanA_skip {α : Type} (t : Str → Option α) (pat : Str)
    (ht : ∀ l s, mismatchIn pat l = true → t (l ++ s) = none) :
    ∀ pre s, mismatchChain pat pre = true →
      scanA t (pre ++ s) = scanA t s := by
  intro pre
  induction pre with
  | nil => intro s _; rfl
  | cons c rest ih =>
    intro s hchain
    simp only [mismatchChain, Bool.and_eq_true] at hchain
    have hnone := ht (c :: rest) s hchain.1
    simp only [List.cons_append] at hnone ⊢
    rw [show scanA t (c :: (rest ++ s)) =
          match t (c :: (rest ++ s)) with
          | some r => some r
          | none => scanA t (rest ++ s) from rfl]
    rw [hnone]
    exact ih s hchain.2

lemma tryKeyValue_none_of_mismatch {stop : Char → Bool} {pat : Str}
    {l : Str} (h : mismatchIn pat l = true) (s : Str) :
    tryKeyValue stop pat (l ++ s) = none := by
  unfold tryKeyValue
  rw [strStarts_false_of_mismatchIn h]
  simp

lemma takeWhile_append_all {p : Char → Bool} {v : Str} (hv : ∀ c ∈ v, p c = true)
    {d : Char} (hd : p d = false) (post : Str) :
    (v ++ d :: post).takeWhile p = v := by
  induction v with
  | nil => simp [List.takeWhile, hd]
  | cons c cs ih =>
    have hc := hv c (by simp)
    simp only [List.cons_append, List.takeWhile_cons, hc, if_true]
    rw [ih fun x hx => hv x (by simp [hx])]

/-- Main extraction lemma: on a string of the shape
`pre ++ pat ++ "v" ++ rest`, where no match can start inside `pre` and
`v` is a nonempty quote-free value, the scan captures exactly `v`. -/
lemma tryQuoted_exact {v : Str} (hv : v ≠ []) (hq : ∀ c ∈ v, c ≠ '"')
    (post : Str) : tryQuoted ('"' :: (v ++ '"' :: post)) = some v := by
  have hq' : ∀ c ∈ v, (fun c => c != '"') c = true := by
    intro c hc; simpa using hq c hc
  have htw : (v ++ '"' :: post).takeWhile (fun c => c != '"') = v :=
    takeWhile_append_all hq' (by simp) post
  rw [show tryQuoted ('"' :: (v ++ '"' :: post)) =
        (let run := (v ++ '"' :: post).takeWhile (fun c => c != '"')
         if run ≠ [] ∧ run.length < (v ++ '"' :: post).length then some run
         else none) from rfl]
  simp only [htw]
  rw [if_pos ⟨hv, by simp⟩]

/-- Main extraction lemma: on a string of the shape
`pre ++ (pat ++ ('"' :: (v ++ ('"' :: post))))`, where no match can start
inside `pre` and `v` is a nonempty quote-free value, the scan captures
exactly `v`. -/
lemma scanValue_quoted {stop : Char → Bool} {pat : Str} (hpat : pat ≠ [])
    (pre v post : Str) (hchain : mismatchChain pat pre = true)
    (hv : v ≠ []) (hq : ∀ c ∈ v, c ≠ '"') :
    scanValue stop pat (pre ++ (pat ++ ('"' :: (v ++ '"' :: post)))) = some v := by
  unfold scanValue
  rw [scanA_skip (tryKeyValue stop pat) pat
    (fun l s h => tryKeyValue_none_of_mismatch h s) pre _ hchain]
  have htry : tryKeyValue stop pat (pat ++ ('"' :: (v ++ '"' :: post))) = some v := by
    unfold tryKeyValue
    rw [strStarts_self_append]
    simp only [if_true]
    rw [List.drop_left, tryQuoted_exact hv hq]
  rcases pat with _ | ⟨p, ps⟩
  · exact absurd rfl hpat
  · rw [show ((p :: ps) ++ ('"' :: (v ++ '"' :: post))) =
        p :: (ps ++ ('"' :: (v ++ '"' :: post))) from rfl]
    rw [scanA_cons]
    rw [show (p :: (ps ++ ('"' :: (v ++ '"' :: post)))) =
        ((p :: ps) ++ ('"' :: (v ++ '"' :: post))) from rfl]
    rw [htry]

/-! ### Decimal digits, Go `int` rendering and the framerate scanner -/

/-- The decimal digit character for `d < 10`. -/
def digitChar (d : ℕ) : Char := Char.ofNat (48 + d)

/-- Decimal rendering of a natural number, as `fmt.Sprintf("%d")`. -/
def natStr (n : ℕ) : Str :=
  if n = 0 then ['0'] else (Nat.digits 10 n).reverse.map digitChar

/-- Decimal rendering of a Go `int` by `%d`. -/
def intStr (z : ℤ) : Str :=
  if z < 0 then '-' :: natStr z.natAbs else natStr z.toNat

/-- Go's `int(f)` conversion of a float: truncation toward zero,
idealized on exact rationals. -/
def ratTrunc (q : ℚ) : ℤ := q.num.tdiv (q.den : ℤ)

/-- Numeric value of a run of decimal digit characters, as
`strconv.ParseFloat` reads it (exact for the integral captures that occur
here). -/
def digitsToNat (s : Str) : ℕ := s.foldl (fun a c => a * 10 + (c.toNat - 48)) 0

/-- Consume a literal. -/
def stripPre (pat : Str) (s : Str) : Option Str :=
  if strStarts pat s then some (s.drop pat.length) else none

/-- The regex fragment `\\?c`: an optional literal backslash, then the
literal character `c`. -/
def optBS (c : Char) : Str → Option Str
  | [] => none
  | a :: rest =>
    if a = '\\' then
      match rest with
      | [] => if c = '\\' then some rest else none
      | b :: rest2 =>
        if b = c then some rest2
        else if c = '\\' then some rest else none
    else if a = c then some rest else none

/-- The regex fragment `(\d+)`: a maximal nonempty digit run, with its
numeric value. -/
def parseDigitsRun (s : Str) : Option (ℕ × Str) :=
  let run := s.takeWhile Char.isDigit
  if run = [] then none else some (digitsToNat run, s.drop run.length)

/-- One position of the decoder's regex
`framerate\\?=\\?\(fraction\\?\)(\d+)/(\d+)`. -/
def tryFramerate (s : Str) : Option (ℕ × ℕ) := do
  let s1 ← stripPre (strL ("framerate")) s
  let s2 ← optBS '=' s1
  let s3 ← optBS '(' s2
  let s4 ← stripPre (strL ("fraction")) s3
  let s5 ← optBS ')' s4
  let (num, s6) ← parseDigitsRun s5
  let s7 ← stripPre (strL ("/")) s6
  let (den, _) ← parseDigitsRun s7
  pure (num, den)

/-- Leftmost match of the framerate fraction regex. -/
def scanFramerate (s : Str) : Option (ℕ × ℕ) := scanA tryFramerate s

namespace Decoder

/-- `Decoder.extractName`: the regex
`name=\(string\)(?:"([^"]+)"|(\S+))`, the captured group unescaped;
empty when there is no match. -/
def extractName (metadatas : Str) : Str :=
  match scanValue isSpaceGo (strL ("name=(string)")) metadatas with
  | some v => unescapeGstString v
  | none => []

/-- The bare-token stop class `[^\s,;]+` of the restriction-caps regex. -/
def capsStop (c : Char) : Bool := isSpaceGo c || c == ',' || c == ';'

/-- `Decoder.extractFrameRateFromProperties`: locate the
`restriction-caps=(string)` value, then the framerate fraction inside it;
0 on any failure and on a zero denominator. -/
def extractFrameRateFromProperties (props : Str) : ℚ :=
  match scanValue capsStop (strL ("restriction-caps=(string)")) props with
  | none => 0
  | some caps =>
    match scanFramerate caps with
    | none => 0
    | some (num, den) => if den = 0 then 0 else (num : ℚ) / (den : ℚ)

/-- The decoder's title-text extraction regex
`text=\(string\)(?:"([^"]+)"|(\S+))`, unescaped; empty when absent. -/
def extractTitleText (childrenProps : Str) : Str :=
  match scanValue isSpaceGo (strL ("text=(string)")) childrenProps with
  | some v => unescapeGstString v
  | none => []

end Decoder

namespace Encoder

/-- `Encoder.buildTimelineProperties`. -/
def buildTimelineProperties : Str :=
  strL ("properties, auto-transition=(boolean)true;")

/-- `Encoder.buildTimelineMetadatas`: the framerate is written as the
fraction `int(rate)/1`. -/
def buildTimelineMetadatas (rate : ℚ) : Str :=
  strL ("metadatas, framerate=(fraction)") ++ intStr (ratTrunc rate) ++ strL ("/1;")

/-- `Encoder.buildVideoTrackProperties`: fixed 1920x1080 restriction caps
carrying the fraction `int(rate)/1`. -/
def buildVideoTrackProperties (rate : ℚ) : Str :=
  strL ("properties, restriction-caps=(string)\"video/x-raw\\,\\ width\\=\\(int\\)1920\\,\\ height\\=\\(int\\)1080\\,\\ framerate\\=\\(fraction\\)")
    ++ intStr (ratTrunc rate) ++ strL ("/1\", mixing=(boolean)true;")

/-- `Encoder.buildAudioTrackProperties`. -/
def buildAudioTrackProperties : Str :=
  strL ("properties, restriction-caps=(string)\"audio/x-raw\\,\\ rate\\=\\(int\\)48000\\,\\ channels\\=\\(int\\)2\", mixing=(boolean)true;")

/-- `Encoder.buildClipProperties`. -/
def buildClipProperties (name : Str) : Str :=
  strL ("properties, name=(string)\"") ++ escapeGstString name
    ++ strL ("\", mute=(boolean)false, is-image=(boolean)false;")

/-- `Encoder.buildProjectMetadatas`: carries the escaped timeline name,
or nothing when the name is empty. -/
def buildProjectMetadatas (tname : Str) : Str :=
  if tname = [] then strL ("metadatas;")
  else strL ("metadatas, name=(string)\"") ++ escapeGstString tname ++ strL ("\";")

end Encoder

/-! ### Arithmetic facts about digit rendering and parsing -/

lemma digitChar_isDigit {d : ℕ} (hd : d < 10) : (digitChar d).isDigit = true := by
  interval_cases d <;> decide

lemma digitChar_toNat {d : ℕ} (hd : d < 10) : (digitChar d).toNat = 48 + d := by
  interval_cases d <;> decide

lemma natStr_all_digits (n : ℕ) : ∀ c ∈ natStr n, c.isDigit = true := by
  intro c hc
  unfold natStr at hc
  split at hc
  · simp only [List.mem_singleton] at hc; subst hc; decide
  · simp only [List.mem_map, List.mem_reverse] at hc
    obtain ⟨d, hd, rfl⟩ := hc
    exact digitChar_isDigit (Nat.digits_lt_base (by norm_num) hd)

lemma natStr_ne_nil (n : ℕ) : natStr n ≠ [] := by
  unfold natStr
  split
  · simp
  · next h =>
    intro hnil
    rw [List.map_eq_nil_iff, List.reverse_eq_nil_iff] at hnil
    exact (Nat.digits_ne_nil_iff_ne_zero.mpr h) hnil

lemma foldl_digitChar (l : List ℕ) (hl : ∀ d ∈ l, d < 10) (a : ℕ) :
    List.foldl (fun a c => a * 10 + (c.toNat - 48)) a (l.map digitChar) =
      List.foldl (fun a d => a * 10 + d) a l := by
  induction l generalizing a with
  | nil => rfl
  | cons d rest ih =>
    simp only [List.map_cons, List.foldl_cons]
    rw [digitChar_toNat (hl d (by simp))]
    rw [show 48 + d - 48 = d from by omega]
    exact ih (fun x hx => hl x (by simp [hx])) _

lemma foldr_eq_ofDigits (l : List ℕ) :
    List.foldr (fun d a => a * 10 + d) 0 l = Nat.ofDigits 10 l := by
  induction l with
  | nil => simp [Nat.ofDigits]
  | cons d rest ih => rw [List.foldr_cons, ih, Nat.ofDigits_cons]; ring

lemma digitsToNat_natStr (n : ℕ) : digitsToNat (natStr n) = n := by
  unfold natStr digitsToNat
  split
  · next h => subst h; decide
  · rw [foldl_digitChar _
      (fun d hd => Nat.digits_lt_base (by norm_num) (List.mem_reverse.mp hd)) 0]
    rw [List.foldl_reverse, foldr_eq_ofDigits]
    exact Nat.ofDigits_digits 10 n

/-! ### Evaluation of the framerate scanner on encoder-built strings -/

lemma stripPre_self (pat s : Str) : stripPre pat (pat ++ s) = some s := by
  unfold stripPre
  rw [strStarts_self_append]
  simp [List.drop_left]

lemma stripPre_none {pat s : Str} (h : strStarts pat s = false) :
    stripPre pat s = none := by
  simp [stripPre, h]

lemma parseDigitsRun_natStr (k : ℕ) {d : Char} (hd : d.isDigit = false)
    (post : Str) :
    parseDigitsRun (natStr k ++ d :: post) = some (k, d :: post) := by
  have htw : (natStr k ++ d :: post).takeWhile Char.isDigit = natStr k :=
    takeWhile_append_all (natStr_all_digits k) hd post
  unfold parseDigitsRun
  simp only [htw]
  rw [if_neg (natStr_ne_nil k), digitsToNat_natStr, List.drop_left]

lemma optBS_with (c : Char) (rest : Str) :
    optBS c ('\\' :: c :: rest) = some rest := by
  simp [optBS]

lemma optBS_without (c : Char) (rest : Str) (hc : c ≠ '\\') :
    optBS c (c :: rest) = some rest := by
  simp [optBS, hc]

lemma tryFramerate_none_of_mismatch {l : Str}
    (h : mismatchIn (strL ("framerate")) l = true) (s : Str) :
    tryFramerate (l ++ s) = none := by
  unfold tryFramerate
  rw [stripPre_none (strStarts_false_of_mismatchIn h s)]
  rfl

lemma scanA_found {α : Type} (t : Str → Option α) (pat pre : Str)
    (ht : ∀ l s, mismatchIn pat l = true → t (l ++ s) = none)
    (hchain : mismatchChain pat pre = true)
    {s : Str} {r : α} (hs : t s = some r) (hne : s ≠ []) :
    scanA t (pre ++ s) = some r := by
  rw [scanA_skip t pat ht pre s hchain]
  cases s with
  | nil => exact absurd rfl hne
  | cons c rest => rw [scanA_cons, hs]

/-- The framerate regex succeeds on the escaped spelling
`framerate\=\(fraction\)K/1` produced inside restriction-caps. -/
lemma tryFramerate_bs (k : ℕ) {post : Str}
    (hpost : ∀ c ∈ post, c.isDigit = false) :
    tryFramerate (strL ("framerate\\=\\(fraction\\)") ++
        (natStr k ++ ('/' :: '1' :: post))) = some (k, 1) := by
  have hsplit : strL ("framerate\\=\\(fraction\\)") =
      strL ("framerate") ++ ('\\' :: '=' :: '\\' :: '(' ::
        (strL ("fraction") ++ ('\\' :: ')' :: []))) := by decide
  rw [hsplit, List.append_assoc]
  unfold tryFramerate
  rw [stripPre_self]
  simp only [Option.bind_eq_bind, Option.some_bind]
  rw [show ('\\' :: '=' :: '\\' :: '(' :: (strL ("fraction") ++ ('\\' :: ')' :: []))
        ++ (natStr k ++ ('/' :: '1' :: post))) =
      '\\' :: '=' :: ('\\' :: '(' :: (strL ("fraction") ++
        ('\\' :: ')' :: (natStr k ++ ('/' :: '1' :: post))))) by simp]
  rw [optBS_with '=' _]
  simp only [Option.some_bind]
  rw [optBS_with '(' _]
  simp only [Option.some_bind]
  rw [stripPre_self]
  simp only [Option.some_bind]
  rw [optBS_with ')' _]
  simp only [Option.some_bind]
  rw [parseDigitsRun_natStr k (by decide) _]
  simp only [Option.some_bind]
  rw [show ('/' :: '1' :: post) = strL ("/") ++ ('1' :: post) from rfl, stripPre_self]
  simp only [Option.some_bind]
  have h1 : parseDigitsRun ('1' :: post) = some (1, post) := by
    cases post with
    | nil => decide
    | cons d rest =>
      have hd := hpost d (by simp)
      have htw : ('1' :: d :: rest).takeWhile Char.isDigit = ['1'] := by
        simp [List.takeWhile_cons, hd]
      simp only [parseDigitsRun, htw]
      rw [if_neg (by simp)]
      rfl
  rw [h1]
  rfl

/-- The framerate regex also succeeds on the plain spelling
`framerate=(fraction)K/1` used in the timeline metadatas. -/
lemma tryFramerate_plain (k : ℕ) {post : Str}
    (hpost : ∀ c ∈ post, c.isDigit = false) :
    tryFramerate (strL ("framerate=(fraction)") ++
        (natStr k ++ ('/' :: '1' :: post))) = some (k, 1) := by
  have hsplit : strL ("framerate=(fraction)") =
      strL ("framerate") ++ ('=' :: '(' :: (strL ("fraction") ++ (')' :: []))) := by
    decide
  rw [hsplit, List.append_assoc]
  unfold tryFramerate
  rw [stripPre_self]
  simp only [Option.bind_eq_bind, Option.some_bind]
  rw [show ('=' :: '(' :: (strL ("fraction") ++ (')' :: []))
        ++ (natStr k ++ ('/' :: '1' :: post))) =
      '=' :: ('(' :: (strL ("fraction") ++
        (')' :: (natStr k ++ ('/' :: '1' :: post))))) by simp]
  rw [optBS_without '=' _ (by decide)]
  simp only [Option.some_bind]
  rw [optBS_without '(' _ (by decide)]
  simp only [Option.some_bind]
  rw [stripPre_self]
  simp only [Option.some_bind]
  rw [optBS_without ')' _ (by decide)]
  simp only [Option.some_bind]
  rw [parseDigitsRun_natStr k (by decide) _]
  simp only [Option.some_bind]
  rw [show ('/' :: '1' :: post) = strL ("/") ++ ('1' :: post) from rfl, stripPre_self]
  simp only [Option.some_bind]
  have h1 : parseDigitsRun ('1' :: post) = some (1, post) := by
    cases post with
    | nil => decide
    | cons d rest =>
      have hd := hpost d (by simp)
      have htw : ('1' :: d :: rest).takeWhile Char.isDigit = ['1'] := by
        simp [List.takeWhile_cons, hd]
      simp only [parseDigitsRun, htw]
      rw [if_neg (by simp)]
      rfl
  rw [h1]
  rfl

lemma scanFramerate_found (pre mid : Str)
    (hchain : mismatchChain (strL ("framerate")) pre = true)
    {r : ℕ × ℕ} (h : tryFramerate mid = some r) (hne : mid ≠ []) :
    scanFramerate (pre ++ mid) = some r :=
  scanA_found tryFramerate (strL ("framerate")) pre
    (fun _ s hm => tryFramerate_none_of_mismatch hm s) hchain h hne

/-! ### The bare branch and further scan lemmas -/

lemma tryBare_exact {stop : Char → Bool} {v : Str} (hv : v ≠ [])
    (hstop : ∀ c ∈ v, stop c = false) {d : Char} (hd : stop d = true)
    (post : Str) : tryBare stop (v ++ d :: post) = some v := by
  have htw : (v ++ d :: post).takeWhile (fun c => !stop c) = v :=
    takeWhile_append_all (fun c hc => by simp [hstop c hc]) (by simp [hd]) post
  unfold tryBare
  simp only [htw]
  rw [if_neg hv]

lemma tryQuoted_none_of_head {s : Str} (h : s.head? ≠ some '"') :
    tryQuoted s = none := by
  cases s with
  | nil => rfl
  | cons c t =>
    have hc : c ≠ '"' := by
      intro hh; exact h (by simp [hh])
    simp [tryQuoted, hc]

/-- Bare extraction lemma: on `pre ++ pat ++ v ++ d ++ ...` with `v` a
nonempty run outside the stop class, not starting with a quote, and `d`
in the stop class, the scan captures exactly `v`. -/
lemma scanValue_bare {stop : Char → Bool} {pat : Str} (hpat : pat ≠ [])
    (pre v post : Str) (d : Char) (hchain : mismatchChain pat pre = true)
    (hv : v ≠ []) (hstop : ∀ c ∈ v, stop c = false) (hd : stop d = true)
    (hhead : v.head? ≠ some '"') :
    scanValue stop pat (pre ++ (pat ++ (v ++ d :: post))) = some v := by
  unfold scanValue
  rw [scanA_skip (tryKeyValue stop pat) pat
    (fun l s h => tryKeyValue_none_of_mismatch h s) pre _ hchain]
  have hq : tryQuoted (v ++ d :: post) = none := by
    refine tryQuoted_none_of_head ?_
    cases v with
    | nil => exact absurd rfl hv
    | cons c t => simpa using hhead
  have htry : tryKeyValue stop pat (pat ++ (v ++ d :: post)) = some v := by
    unfold tryKeyValue
    rw [strStarts_self_append]
    simp only [if_true]
    rw [List.drop_left, hq, tryBare_exact hv hstop hd]
  rcases pat with _ | ⟨p, ps⟩
  · exact absurd rfl hpat
  · rw [show ((p :: ps) ++ (v ++ d :: post)) =
        p :: (ps ++ (v ++ d :: post)) from rfl]
    rw [scanA_cons]
    rw [show (p :: (ps ++ (v ++ d :: post))) =
        ((p :: ps) ++ (v ++ d :: post)) from rfl]
    rw [htry]

/-! ### Character-level facts about the escaped values -/

lemma escape_ne_nil {s : Str} (hs : s ≠ []) (hbs : '\\' ∉ s) :
    Encoder.escapeGstString s ≠ [] := by
  rw [escape_eq_flatMap hbs]
  cases s with
  | nil => exact absurd rfl hs
  | cons c t =>
    rw [List.flatMap_cons]
    by_cases hc : escSpecial c <;> simp [hc]

lemma escape_no_quote {s : Str} (hq : '"' ∉ s) (hbs : '\\' ∉ s) :
    ∀ c ∈ Encoder.escapeGstString s, c ≠ '"' := by
  rw [escape_eq_flatMap hbs]
  intro c hc
  rw [List.mem_flatMap] at hc
  obtain ⟨a, ha, hca⟩ := hc
  by_cases hsp : escSpecial a
  · rw [if_pos hsp] at hca
    simp only [List.mem_cons, List.not_mem_nil, or_false] at hca
    rcases hca with h | h
    · subst h; decide
    · subst h
      intro heq
      exact hq (heq ▸ ha)
  · rw [if_neg hsp] at hca
    simp only [List.mem_cons, List.not_mem_nil, or_false] at hca
    subst hca
    intro heq
    exact hq (heq ▸ ha)

lemma isDigit_ne_quote {c : Char} (h : c.isDigit = true) : c ≠ '"' := by
  intro heq
  rw [heq] at h
  exact absurd h (by decide)

lemma ratTrunc_eq_floor {q : ℚ} (h : 0 ≤ q) : ratTrunc q = ⌊q⌋ := by
  rw [Rat.floor_def]
  exact Int.tdiv_eq_ediv (Rat.num_nonneg.mpr h) (by positivity)

lemma ratTrunc_nonneg {q : ℚ} (h : 0 ≤ q) : 0 ≤ ratTrunc q :=
  Int.tdiv_nonneg (Rat.num_nonneg.mpr h) (by positivity)

/-- The name written by `buildClipProperties` is recovered exactly by
`extractName` for nonempty names free of backslash and double quote. -/
lemma extractName_buildClipProperties (name : Str) (hn : name ≠ [])
    (hbs : '\\' ∉ name) (hq : '"' ∉ name) :
    Decoder.extractName (Encoder.buildClipProperties name) = name := by
  have hshape : Encoder.buildClipProperties name =
      strL ("properties, ") ++ (strL ("name=(string)") ++
        ('"' :: (Encoder.escapeGstString name ++ '"' ::
          strL (", mute=(boolean)false, is-image=(boolean)false;")))) := by
    unfold Encoder.buildClipProperties
    rw [show strL ("properties, name=(string)\"") =
        strL ("properties, ") ++ (strL ("name=(string)") ++ ['"']) from by decide]
    rw [show strL ("\", mute=(boolean)false, is-image=(boolean)false;") =
        '"' :: strL (", mute=(boolean)false, is-image=(boolean)false;") from by decide]
    simp [List.append_assoc]
  rw [hshape]
  unfold Decoder.extractName
  rw [scanValue_quoted (by decide) _ _ _ (by decide)
    (escape_ne_nil hn hbs) (escape_no_quote hq hbs)]
  exact unescape_escape hbs

/-- The timeline name written by `buildProjectMetadatas` is recovered
exactly by `extractName` for names free of backslash and double quote
(an empty name is written as bare `metadatas;` and read back empty). -/
lemma extractName_buildProjectMetadatas (tname : Str)
    (hbs : '\\' ∉ tname) (hq : '"' ∉ tname) :
    Decoder.extractName (Encoder.buildProjectMetadatas tname) = tname := by
  by_cases hn : tname = []
  · subst hn
    unfold Encoder.buildProjectMetadatas
    rw [if_pos rfl]
    decide
  · have hshape : Encoder.buildProjectMetadatas tname =
        strL ("metadatas, ") ++ (strL ("name=(string)") ++
          ('"' :: (Encoder.escapeGstString tname ++ '"' :: strL (";")))) := by
      unfold Encoder.buildProjectMetadatas
      rw [if_neg hn]
      rw [show strL ("metadatas, name=(string)\"") =
          strL ("metadatas, ") ++ (strL ("name=(string)") ++ ['"']) from by decide]
      rw [show strL ("\";") = '"' :: strL (";") from by decide]
      simp [List.append_assoc]
    rw [hshape]
    unfold Decoder.extractName
    rw [scanValue_quoted (by decide) _ _ _ (by decide)
      (escape_ne_nil hn hbs) (escape_no_quote hq hbs)]
    exact unescape_escape hbs

/-- The video-track restriction caps written by the encoder decode to the
truncated integral rate. -/
lemma extractFrameRateFromProperties_build (rate : ℚ) (h0 : 0 ≤ ratTrunc rate) :
    Decoder.extractFrameRateFromProperties (Encoder.buildVideoTrackProperties rate) =
      (((ratTrunc rate).toNat : ℕ) : ℚ) := by
  have hint : intStr (ratTrunc rate) = natStr (ratTrunc rate).toNat := by
    unfold intStr
    rw [if_neg (not_lt.mpr h0)]
  have hshape : Encoder.buildVideoTrackProperties rate =
      strL ("properties, ") ++ (strL ("restriction-caps=(string)") ++
        ('"' :: ((strL ("video/x-raw\\,\\ width\\=\\(int\\)1920\\,\\ height\\=\\(int\\)1080\\,\\ ")
            ++ (strL ("framerate\\=\\(fraction\\)") ++
              (natStr (ratTrunc rate).toNat ++ ['/', '1'])))
          ++ '"' :: strL (", mixing=(boolean)true;")))) := by
    unfold Encoder.buildVideoTrackProperties
    rw [hint]
    rw [show strL ("properties, restriction-caps=(string)\"video/x-raw\\,\\ width\\=\\(int\\)1920\\,\\ height\\=\\(int\\)1080\\,\\ framerate\\=\\(fraction\\)") =
        strL ("properties, ") ++ (strL ("restriction-caps=(string)") ++
          ('"' :: (strL ("video/x-raw\\,\\ width\\=\\(int\\)1920\\,\\ height\\=\\(int\\)1080\\,\\ ")
            ++ strL ("framerate\\=\\(fraction\\)")))) from by decide]
    rw [show strL ("/1\", mixing=(boolean)true;") =
        '/' :: '1' :: '"' :: strL (", mixing=(boolean)true;") from by decide]
    simp [List.append_assoc]
  rw [hshape]
  unfold Decoder.extractFrameRateFromProperties
  have hv : (strL ("video/x-raw\\,\\ width\\=\\(int\\)1920\\,\\ height\\=\\(int\\)1080\\,\\ ")
      ++ (strL ("framerate\\=\\(fraction\\)") ++
        (natStr (ratTrunc rate).toNat ++ ['/', '1']))) ≠ [] :=
    List.append_ne_nil_of_left_ne_nil (by decide) _
  have hqv : ∀ c ∈ (strL ("video/x-raw\\,\\ width\\=\\(int\\)1920\\,\\ height\\=\\(int\\)1080\\,\\ ")
      ++ (strL ("framerate\\=\\(fraction\\)") ++
        (natStr (ratTrunc rate).toNat ++ ['/', '1']))), c ≠ '"' := by
    intro c hc
    simp only [List.mem_append, List.mem_cons, List.not_mem_nil, or_false] at hc
    rcases hc with hc | hc | hc | hc
    · revert hc
      revert c
      decide
    · revert hc
      revert c
      decide
    · exact isDigit_ne_quote (natStr_all_digits _ c hc)
    · rcases hc with hc | hc
      · subst hc; decide
      · subst hc; decide
  rw [scanValue_quoted (by decide) _ _ _ (by decide) hv hqv]
  have hmid : tryFramerate (strL ("framerate\\=\\(fraction\\)") ++
      (natStr (ratTrunc rate).toNat ++ ('/' :: '1' :: []))) =
      some ((ratTrunc rate).toNat, 1) :=
    tryFramerate_bs _ (by simp)
  have hfr : scanFramerate
      (strL ("video/x-raw\\,\\ width\\=\\(int\\)1920\\,\\ height\\=\\(int\\)1080\\,\\ ")
        ++ (strL ("framerate\\=\\(fraction\\)") ++
          (natStr (ratTrunc rate).toNat ++ ['/', '1']))) =
      some ((ratTrunc rate).toNat, 1) :=
    scanFramerate_found _ _ (by decide) hmid
      (List.append_ne_nil_of_left_ne_nil (by decide) _)
  simp only [hfr]
  norm_num

/-! ### C4: structure-string field extraction -/

/-- C4, counterexample: the quoted branch `[^"]+` of the extraction regex
does not honor an escaped double quote inside the quotes.  For the field
`name=(string)"a\"b"` (the escape of the name `a"b`), the claim predicts
the full value `a\"b` (unescaping to `a"b`); the code captures only `a\`. -/
theorem C4_counterexample :
    Encoder.escapeGstString (strL ("a\"b")) = strL ("a\\\"b") ∧
      Decoder.extractName (strL ("metadatas, name=(string)\"a\\\"b\";")) =
        strL ("a\\") ∧
      Decoder.extractName (strL ("metadatas, name=(string)\"a\\\"b\";")) ≠
        strL ("a\"b") := by
  refine ⟨by decide, by decide, by decide⟩

/-- C4, amended: the quoted branch captures the maximal run of non-quote
characters (so escaped spaces and commas inside the quotes survive, but
the capture stops at any double quote, including an escaped one); the
bare branch of the name regex is terminated by whitespace only, and the
bare branch of the restriction-caps regex by whitespace, comma or
semicolon. -/
theorem C4_structure_decode (v : Str) (hv : v ≠ []) :
    ((∀ c ∈ v, c ≠ '"') →
      Decoder.extractName (strL ("metadatas, ") ++ (strL ("name=(string)") ++
          ('"' :: (v ++ '"' :: strL (";"))))) = Decoder.unescapeGstString v) ∧
      ((∀ c ∈ v, isSpaceGo c = false) → v.head? ≠ some '"' →
        Decoder.extractName (strL ("metadatas, ") ++ (strL ("name=(string)") ++
            (v ++ ' ' :: strL ("tail")))) = Decoder.unescapeGstString v) ∧
      ((∀ c ∈ v, Decoder.capsStop c = false) → v.head? ≠ some '"' →
        scanValue Decoder.capsStop (strL ("restriction-caps=(string)"))
            (strL ("properties, ") ++ (strL ("restriction-caps=(string)") ++
              (v ++ ',' :: strL ("tail")))) = some v) := by
  refine ⟨?_, ?_, ?_⟩
  · intro hq
    unfold Decoder.extractName
    rw [scanValue_quoted (by decide) _ _ _ (by decide) hv hq]
  · intro hsp hhead
    unfold Decoder.extractName
    rw [scanValue_bare (by decide) _ _ _ ' ' (by decide) hv hsp (by decide) hhead]
  · intro hstop hhead
    rw [scanValue_bare (by decide) _ _ _ ',' (by decide) hv hstop (by decide) hhead]

/-- Witness for C4: a quoted value with escaped space and comma is
recovered in full, and a bare name token runs through commas. -/
theorem C4_structure_decode_witness :
    Decoder.extractName (strL ("metadatas, ") ++ (strL ("name=(string)") ++
        ('"' :: (strL ("a\\ b\\,c") ++ '"' :: strL (";"))))) = strL ("a b,c") ∧
      Decoder.extractName (strL ("metadatas, ") ++ (strL ("name=(string)") ++
          (strL ("a,b;c") ++ ' ' :: strL ("tail")))) = strL ("a,b;c") := by
  constructor
  · rw [(C4_structure_decode (strL ("a\\ b\\,c")) (by decide)).1 (by decide)]
    decide
  · rw [(C4_structure_decode (strL ("a,b;c")) (by decide)).2.1 (by decide) (by decide)]
    decide

/-! ### C7: transition-type mapping -/

/-- Go's `strings.ToLower`, restricted to the ASCII range (every
asset-id tag the decoder compares is ASCII). -/
def toLowerGo (s : Str) : Str :=
  s.map fun c => if 'A' ≤ c ∧ c ≤ 'Z' then Char.ofNat (c.toNat + 32) else c

namespace Decoder

/-- `Decoder.mapTransitionType`: case-insensitive dispatch on the GES
asset-id; an unrecognized asset-id is passed through as a custom type.
The transition-type tag values of the external timeline library are
modelled from the spec with their OTIO spellings. -/
def mapTransitionType (assetID : Str) : Str :=
  if toLowerGo assetID = strL ("crossfade") then strL ("SMPTE_Dissolve")
  else if toLowerGo assetID = strL ("wipe") then strL ("SMPTE_Wipe")
  else if toLowerGo assetID = strL ("clock-wipe") then strL ("SMPTE_ClockWipe")
  else if toLowerGo assetID = strL ("barwipe") then strL ("SMPTE_BarWipe")
  else if toLowerGo assetID = strL ("box-wipe") then strL ("SMPTE_BoxWipe")
  else assetID

end Decoder

namespace Encoder

/-- `Encoder.reverseMapTransitionType`: the SMPTE tags map to fixed GES
asset-ids; an empty or `Custom_Transition` type maps to `crossfade`; any
other custom type is used as-is.  The constants
`TransitionTypeSMPTEDissolve` and `TransitionTypeCustom` of the external
timeline library are modelled from the spec with their OTIO spellings. -/
def reverseMapTransitionType (transitionType : Str) : Str :=
  if transitionType = strL ("SMPTE_Dissolve") then strL ("crossfade")
  else if transitionType = strL ("SMPTE_Wipe") then strL ("wipe")
  else if transitionType = strL ("SMPTE_ClockWipe") then strL ("clock-wipe")
  else if transitionType = strL ("SMPTE_BarWipe") then strL ("barwipe")
  else if transitionType = strL ("SMPTE_BoxWipe") then strL ("box-wipe")
  else if transitionType = [] ∨ transitionType = strL ("Custom_Transition") then
    strL ("crossfade")
  else transitionType

end Encoder

/-- C7: SMPTE_Wipe encodes to asset-id `wipe`; asset-id `wipe` decodes
case-insensitively to SMPTE_Wipe; an unrecognized asset-id decodes to a
custom type equal to the raw string; an empty or Custom transition type
encodes to `crossfade`. -/
theorem C7_transition_mapping (s : Str) :
    Encoder.reverseMapTransitionType (strL ("SMPTE_Wipe")) = strL ("wipe") ∧
      (toLowerGo s = strL ("wipe") →
        Decoder.mapTransitionType s = strL ("SMPTE_Wipe")) ∧
      (toLowerGo s ≠ strL ("crossfade") → toLowerGo s ≠ strL ("wipe") →
        toLowerGo s ≠ strL ("clock-wipe") → toLowerGo s ≠ strL ("barwipe") →
        toLowerGo s ≠ strL ("box-wipe") → Decoder.mapTransitionType s = s) ∧
      Encoder.reverseMapTransitionType [] = strL ("crossfade") ∧
      Encoder.reverseMapTransitionType (strL ("Custom_Transition")) =
        strL ("crossfade") := by
  refine ⟨by decide, ?_, ?_, by decide, by decide⟩
  · intro h
    simp [Decoder.mapTransitionType, h]
    decide
  · intro h1 h2 h3 h4 h5
    simp [Decoder.mapTransitionType, h1, h2, h3, h4, h5]

/-- Witness for C7: `WiPe` decodes to SMPTE_Wipe, `myfade` passes
through raw. -/
theorem C7_transition_mapping_witness :
    Decoder.mapTransitionType (strL ("WiPe")) = strL ("SMPTE_Wipe") ∧
      Decoder.mapTransitionType (strL ("myfade")) = strL ("myfade") :=
  ⟨(C7_transition_mapping (strL ("WiPe"))).2.1 (by decide),
    (C7_transition_mapping (strL ("myfade"))).2.2.1 (by decide) (by decide)
      (by decide) (by decide) (by decide)⟩

/-! ### C10: the encoder truncates the rate to an integer -/

/-- C10: both the timeline metadatas and the video-track restriction caps
carry the fraction `int(rate)/1` — the rate truncated toward zero — so a
non-integer inferred rate is recorded with its fractional part lost. -/
theorem C10_truncated_framerate (rate : ℚ) (h0 : 0 ≤ rate) :
    Decoder.extractFrameRateFromProperties (Encoder.buildVideoTrackProperties rate) =
        ((ratTrunc rate).toNat : ℚ) ∧
      scanFramerate (Encoder.buildTimelineMetadatas rate) =
        some ((ratTrunc rate).toNat, 1) ∧
      ((¬ ∃ z : ℤ, rate = (z : ℚ)) → ((ratTrunc rate).toNat : ℚ) ≠ rate) := by
  have htr := ratTrunc_nonneg h0
  refine ⟨extractFrameRateFromProperties_build rate htr, ?_, ?_⟩
  · have hint : intStr (ratTrunc rate) = natStr (ratTrunc rate).toNat := by
      unfold intStr
      rw [if_neg (not_lt.mpr htr)]
    have hshape : Encoder.buildTimelineMetadatas rate =
        strL ("metadatas, ") ++ (strL ("framerate=(fraction)") ++
          (natStr (ratTrunc rate).toNat ++ ('/' :: '1' :: strL (";")))) := by
      unfold Encoder.buildTimelineMetadatas
      rw [hint]
      rw [show strL ("metadatas, framerate=(fraction)") =
          strL ("metadatas, ") ++ strL ("framerate=(fraction)") from by decide]
      rw [show strL ("/1;") = '/' :: '1' :: strL (";") from by decide]
      simp [List.append_assoc]
    rw [hshape]
    exact scanFramerate_found _ _ (by decide)
      (tryFramerate_plain _ (by decide))
      (List.append_ne_nil_of_left_ne_nil (by decide) _)
  · intro hnz heq
    refine hnz ⟨((ratTrunc rate).toNat : ℤ), ?_⟩
    rw [show ((((ratTrunc rate).toNat : ℤ)) : ℚ) = ((ratTrunc rate).toNat : ℚ) from by
      push_cast; rfl]
    exact heq.symm

/-- Witness for C10: the rate 23.976 is recorded as the fraction 23/1. -/
theorem C10_truncated_framerate_witness :
    Decoder.extractFrameRateFromProperties
        (Encoder.buildVideoTrackProperties ((23976 : ℚ) / 1000)) =
      ((ratTrunc ((23976 : ℚ) / 1000)).toNat : ℚ) ∧
      ((ratTrunc ((23976 : ℚ) / 1000)).toNat : ℚ) = 23 ∧
      ((23 : ℚ) ≠ (23976 : ℚ) / 1000) := by
  have h23 : ratTrunc ((23976 : ℚ) / 1000) = 23 := by
    rw [ratTrunc_eq_floor (by norm_num)]
    norm_num
  refine ⟨(C10_truncated_framerate ((23976 : ℚ) / 1000) (by norm_num)).1, ?_, by norm_num⟩
  rw [h23, show Int.toNat 23 = 23 from rfl]
  norm_num

/-! ### The data model

The timeline object library and the rational-time type are out-of-scope
external collaborators; their shapes below are modelled from the spec
(section 3): rational time is a (value, rate) pair, a clip holds a name,
a media-reference variant, a source range and extension metadata under
the reserved namespace, and so on.  `float64` fields are idealized as
exact rationals. -/

/-- Modelled from the spec: the external library's rational time. -/
structure RationalTime where
  value : ℚ
  rate : ℚ
deriving DecidableEq

namespace RationalTime

/-- Modelled from the spec: convert to seconds via the time's own rate. -/
def toSeconds (t : RationalTime) : ℚ := t.value / t.rate

/-- Modelled from the spec: rational-time addition; a differing rate is
rescaled to the left operand's rate, as the OTIO convention has it. -/
def add (a b : RationalTime) : RationalTime :=
  if b.rate = a.rate then ⟨a.value + b.value, a.rate⟩
  else ⟨a.value + b.value * a.rate / b.rate, a.rate⟩

end RationalTime

/-- Modelled from the spec: `opentime.FromSeconds`, re-expressing a
second count at the given rate. -/
def fromSeconds (secs rate : ℚ) : RationalTime := ⟨secs * rate, rate⟩

/-- Modelled from the spec: a time range, start time plus duration. -/
structure TimeRange where
  startTime : RationalTime
  duration : RationalTime
deriving DecidableEq

/-- `GSTSecond` (schema declarations): nanoseconds per second. -/
def GSTSecond : ℕ := 1000000000

/-- Modelled from the spec: the external-reference media variant. -/
structure ExternalReference where
  targetURL : Str
deriving DecidableEq

/-- Modelled from the spec: the generator-reference media variant. -/
structure GeneratorReference where
  generatorKind : Str
deriving DecidableEq

/-- Modelled from the spec: the media-reference variants the encoder
dispatches on; `otherRef` stands for any further implementation of the
media-reference interface (the switch's default branch). -/
inductive MediaReference
  | external (ref : ExternalReference)
  | generator (ref : GeneratorReference)
  | otherRef
deriving DecidableEq

/-- The documented keys of the reserved `xges` metadata namespace. -/
structure XgesMeta where
  childrenProperties : Option Str
  text : Option Str
  clipType : Option Str
deriving DecidableEq

/-- Modelled from the spec: a timeline clip. -/
structure OClip where
  name : Str
  mediaReference : Option MediaReference
  sourceRange : Option TimeRange
  meta : Option XgesMeta
deriving DecidableEq

/-- `Clip.Duration()`: the source range's duration; an error when there
is no source range. -/
def OClip.duration? (c : OClip) : Option RationalTime :=
  c.sourceRange.map (fun sr => sr.duration)

/-- Modelled from the spec: a gap, duration only. -/
structure OGap where
  duration : RationalTime
deriving DecidableEq

/-- Modelled from the spec: a transition. -/
structure OTransition where
  name : Str
  transitionType : Str
  inOffset : RationalTime
  outOffset : RationalTime
  meta : Option XgesMeta
deriving DecidableEq

/-- A stand-in for any other implementation of the composable interface
(for example a nested track); the encoder's type switch has no branch
for it. -/
structure OtherItem where
  duration : RationalTime
deriving DecidableEq

/-- Modelled from the spec: a track child. -/
inductive Composable
  | clip (c : OClip)
  | gap (g : OGap)
  | transition (t : OTransition)
  | other (o : OtherItem)
deriving DecidableEq

/-- Modelled from the spec: track kinds. -/
inductive TrackKind
  | video
  | audio
deriving DecidableEq

/-- Modelled from the spec: a track. -/
structure OTrack where
  name : Str
  kind : TrackKind
  children : List Composable
deriving DecidableEq

/-- Modelled from the spec: a timeline. -/
structure OTimeline where
  name : Str
  tracks : List OTrack
deriving DecidableEq

/-- `Timeline.VideoTracks()`. -/
def OTimeline.videoTracks (t : OTimeline) : List OTrack :=
  t.tracks.filter (fun tr => tr.kind == TrackKind.video)

/-- `Timeline.AudioTracks()`. -/
def OTimeline.audioTracks (t : OTimeline) : List OTrack :=
  t.tracks.filter (fun tr => tr.kind == TrackKind.audio)

/-! ### The sink document tree (schema declarations) -/

/-- `TrackTypeVideo` bit. -/
def TrackTypeVideo : ℕ := 4

/-- `TrackTypeAudio` bit. -/
def TrackTypeAudio : ℕ := 2

/-- `ClipTypeURI`. -/
def ClipTypeURI : Str := strL ("GESUriClip")

/-- `ClipTypeTransition`. -/
def ClipTypeTransition : Str := strL ("GESTransitionClip")

/-- `ClipTypeTest`. -/
def ClipTypeTest : Str := strL ("GESTestClip")

/-- `ClipTypeTitle`. -/
def ClipTypeTitle : Str := strL ("GESTitleClip")

/-- The `Clip` element (schema declarations); an absent
children-properties attribute is the empty string. -/
structure GClip where
  id : ℕ
  assetID : Str
  typeName : Str
  layerPriority : ℕ
  trackTypes : ℕ
  start : ℕ
  duration : ℕ
  inpoint : ℕ
  rate : ℕ
  properties : Str
  metadatas : Str
  childrenProperties : Str
deriving DecidableEq

/-- The `Track` element (schema declarations). -/
structure GTrack where
  caps : Str
  trackType : ℕ
  trackID : ℕ
  properties : Str
  metadatas : Str
deriving DecidableEq

/-- The `Layer` element (schema declarations). -/
structure GLayer where
  priority : ℕ
  properties : Str
  metadatas : Str
  clips : List GClip
deriving DecidableEq

/-- The `Timeline` element (schema declarations). -/
structure GTimeline where
  properties : Str
  metadatas : Str
  tracks : List GTrack
  layers : List GLayer
deriving DecidableEq

/-- The `Project` element (schema declarations). -/
structure GProject where
  properties : Str
  metadatas : Str
  timeline : GTimeline
deriving DecidableEq

/-- The `GES` root element (schema declarations). -/
structure GES where
  version : Str
  project : GProject
deriving DecidableEq

/-! ### The encoder pipeline -/

namespace Encoder

/-- `Encoder.toNanoseconds`: seconds times 1e9, then Go's
`uint64(float64)` conversion, truncation toward zero (a float at or
below -1 converts to an unspecified value in Go; the embedding truncates
it to 0). -/
def toNanoseconds (t : RationalTime) : ℕ :=
  (ratTrunc (t.toSeconds * (GSTSecond : ℚ))).toNat

/-- The body of `Encoder.extractFrameRate`'s inner loop: the duration
rate of a clip child, when positive. -/
def clipPositiveRate : Composable → Option ℚ
  | .clip c =>
    match c.duration? with
    | some d => if 0 < d.rate then some d.rate else none
    | none => none
  | _ => none

/-- `Encoder.extractFrameRate` (encoder.go): scan every video track's
children in order, then every audio track's, and take the duration rate
of the first clip carrying a positive one; otherwise keep the
`NewEncoder` default of 25. -/
def extractFrameRate (t : OTimeline) : ℚ :=
  match t.videoTracks.findSome? (fun tr => tr.children.findSome? clipPositiveRate) with
  | some r => r
  | none =>
    match t.audioTracks.findSome? (fun tr => tr.children.findSome? clipPositiveRate) with
    | some r => r
    | none => 25

/-- `Encoder.extractTitleProperties`. -/
def extractTitleProperties (c : OClip) : Str :=
  match c.meta with
  | none => []
  | some m =>
    match m.childrenProperties with
    | some cp => cp
    | none =>
      match m.text with
      | some tx =>
        strL ("properties, text=(string)\"") ++ escapeGstString tx ++ strL ("\";")
      | none => []

/-- `Encoder.extractChildrenProperties`. -/
def extractChildrenProperties (c : OClip) : Str :=
  match c.meta with
  | none => []
  | some m => m.childrenProperties.getD []

/-- `Encoder.convertClip`: one sink element for a timeline clip; fails
when the clip has no duration. -/
def convertClip (c : OClip) (startTime : ℕ) (priority trackType id : ℕ) :
    Option GClip :=
  match c.duration? with
  | none => none
  | some dur =>
    let inpoint : ℕ :=
      match c.sourceRange with
      | some sr => toNanoseconds sr.startTime
      | none => 0
    let name := if c.name = [] then strL ("clip") ++ natStr id else c.name
    let triple : Str × Str × Str :=
      match c.mediaReference with
      | some (.external ref) =>
        (if ref.targetURL = [] then strL ("file:///missing") else ref.targetURL,
          ClipTypeURI, [])
      | some (.generator ref) =>
        if ref.generatorKind = strL ("title") then
          (ClipTypeTitle, ClipTypeTitle, extractTitleProperties c)
        else
          (if ref.generatorKind = [] then strL ("black") else ref.generatorKind,
            ClipTypeTest, [])
      | some .otherRef => (strL ("file:///missing"), ClipTypeURI, [])
      | none => (strL ("file:///missing"), ClipTypeURI, [])
    let childrenProps :=
      if triple.2.2 = [] then extractChildrenProperties c else triple.2.2
    some {
      id := id, assetID := triple.1, typeName := triple.2.1,
      layerPriority := priority, trackTypes := trackType,
      start := startTime, duration := toNanoseconds dur,
      inpoint := inpoint, rate := 0,
      properties := buildClipProperties name,
      metadatas := [],
      childrenProperties := childrenProps }

/-- `Encoder.convertTransition`: sink duration is in-offset plus
out-offset. -/
def convertTransition (tr : OTransition) (startTime : ℕ)
    (priority trackType id : ℕ) : GClip :=
  let dur := tr.inOffset.add tr.outOffset
  let name := if tr.name = [] then strL ("transition") ++ natStr id else tr.name
  let childrenProps : Str :=
    match tr.meta with
    | some m => m.childrenProperties.getD []
    | none => []
  { id := id, assetID := reverseMapTransitionType tr.transitionType,
    typeName := ClipTypeTransition,
    layerPriority := priority, trackTypes := trackType,
    start := startTime, duration := toNanoseconds dur, inpoint := 0, rate := 0,
    properties := buildClipProperties name, metadatas := [],
    childrenProperties := childrenProps }

/-- The child loop of `Encoder.convertTrackToLayer`: a cursor walk that
advances past gaps without emitting, emits one element per clip or
transition at the cursor, and falls through (no branch) for any other
child. -/
def layerClips (priority trackType : ℕ) :
    ℕ → ℕ → List Composable → Option (List GClip × ℕ)
  | _, id, [] => some ([], id)
  | cur, id, child :: rest =>
    match child with
    | .gap g =>
      layerClips priority trackType (addU64 cur (toNanoseconds g.duration)) id rest
    | .clip c =>
      match convertClip c cur priority trackType id with
      | none => none
      | some gc =>
        match c.duration? with
        | none => none
        | some dur =>
          match layerClips priority trackType
              (addU64 cur (toNanoseconds dur)) (id + 1) rest with
          | none => none
          | some (more, id') => some (gc :: more, id')
    | .transition tr =>
      let gc := convertTransition tr cur priority trackType id
      match layerClips priority trackType
          (addU64 cur (toNanoseconds (tr.inOffset.add tr.outOffset))) (id + 1) rest with
      | none => none
      | some (more, id') => some (gc :: more, id')
    | .other _ => layerClips priority trackType cur id rest

/-- `Encoder.convertTrackToLayer`. -/
def convertTrackToLayer (track : OTrack) (priority clipID trackType : ℕ) :
    Option (GLayer × ℕ) :=
  match layerClips priority trackType 0 clipID track.children with
  | none => none
  | some (clips, id') =>
    some ({ priority := priority,
            properties := strL ("properties, auto-transition=(boolean)true;"),
            metadatas := strL ("metadatas, volume=(float)1;"),
            clips := clips }, id')

/-- The per-kind layer loop of `Encoder.Encode`, threading the layer
priority and clip id counters. -/
def convertTracks (trackType : ℕ) :
    List OTrack → ℕ → ℕ → Option (List GLayer × ℕ × ℕ)
  | [], pr, id => some ([], pr, id)
  | tr :: rest, pr, id =>
    match convertTrackToLayer tr pr id trackType with
    | none => none
    | some (layer, id') =>
      match convertTracks trackType rest (pr + 1) id' with
      | none => none
      | some (layers, pr', id'') => some (layer :: layers, pr', id'')

/-- `Encoder.Encode` down to the sink document tree (the XML
serialization is the out-of-scope marshaling facility). -/
def Encode (t : OTimeline) : Option GES :=
  let rate := extractFrameRate t
  let gtracks : List GTrack :=
    (if t.videoTracks.length > 0 then
      [{ caps := strL ("video/x-raw(ANY)"), trackType := TrackTypeVideo,
         trackID := 0, properties := buildVideoTrackProperties rate,
         metadatas := strL ("metadatas;") }]
    else []) ++
    (if t.audioTracks.length > 0 then
      [{ caps := strL ("audio/x-raw(ANY)"), trackType := TrackTypeAudio,
         trackID := if t.videoTracks.length > 0 then 1 else 0,
         properties := buildAudioTrackProperties,
         metadatas := strL ("metadatas;") }]
    else [])
  match convertTracks TrackTypeVideo t.videoTracks 0 0 with
  | none => none
  | some (vlayers, pr, id) =>
    match convertTracks TrackTypeAudio t.audioTracks pr id with
    | none => none
    | some (alayers, _, _) =>
      some { version := strL ("0.3"),
             project := {
               properties := strL ("properties;"),
               metadatas := buildProjectMetadatas t.name,
               timeline := {
                 properties := buildTimelineProperties,
                 metadatas := buildTimelineMetadatas rate,
                 tracks := gtracks,
                 layers := vlayers ++ alayers } } }

end Encoder

/-! ### The decoder pipeline -/

namespace Decoder

/-- `Decoder.toRationalTime`: nanoseconds over 1e9 seconds at the
decoder's rate. -/
def toRationalTime (rate : ℚ) (ns : ℕ) : RationalTime :=
  fromSeconds ((ns : ℚ) / (GSTSecond : ℚ)) rate

/-- `Decoder.extractFrameRate` (decoder): the first video track whose
properties yield a positive rate; otherwise the `NewDecoder` default of
25.  The timeline-level metadatas are not consulted. -/
def extractFrameRate (tl : GTimeline) : ℚ :=
  match tl.tracks.findSome? (fun tr =>
      if tr.trackType = TrackTypeVideo then
        (if 0 < extractFrameRateFromProperties tr.properties then
          some (extractFrameRateFromProperties tr.properties) else none)
      else none) with
  | some r => r
  | none => 25

/-- The decoder's `addChildrenPropertiesToMetadata` helper: a
children-properties attribute, when present, is preserved verbatim into
the reserved metadata namespace. -/
def childrenPropsMeta (gc : GClip) : Option XgesMeta :=
  if gc.childrenProperties ≠ [] then
    some { childrenProperties := some gc.childrenProperties,
           text := none, clipType := none }
  else none

/-- `Decoder.convertTransition`: in- and out-offsets are each half the
element's duration. -/
def convertTransition (rate : ℚ) (gc : GClip) : Composable :=
  let duration := toRationalTime rate gc.duration
  .transition {
    name := extractName gc.properties,
    transitionType := mapTransitionType gc.assetID,
    inOffset := ⟨duration.value / 2, duration.rate⟩,
    outOffset := ⟨duration.value / 2, duration.rate⟩,
    meta := childrenPropsMeta gc }

/-- `Decoder.convertURIClip`. -/
def convertURIClip (rate : ℚ) (gc : GClip) : OClip :=
  { name := extractName gc.properties,
    mediaReference := some (.external ⟨gc.assetID⟩),
    sourceRange := some ⟨toRationalTime rate gc.inpoint, toRationalTime rate gc.duration⟩,
    meta := childrenPropsMeta gc }

/-- `Decoder.convertTestClip`. -/
def convertTestClip (rate : ℚ) (gc : GClip) : OClip :=
  { name := extractName gc.properties,
    mediaReference := some (.generator
      ⟨if gc.assetID = [] then strL ("black") else gc.assetID⟩),
    sourceRange := some ⟨toRationalTime rate gc.inpoint, toRationalTime rate gc.duration⟩,
    meta := childrenPropsMeta gc }

/-- The decoder's title-text regex, as an optional capture. -/
def extractTitleText? (s : Str) : Option Str :=
  match scanValue isSpaceGo (strL ("text=(string)")) s with
  | some v => some (unescapeGstString v)
  | none => none

/-- `Decoder.convertTitleClip`: generator kind `title`, the title text
scraped from children-properties, and a `clip-type` marker. -/
def convertTitleClip (rate : ℚ) (gc : GClip) : OClip :=
  { name := extractName gc.properties,
    mediaReference := some (.generator ⟨strL ("title")⟩),
    sourceRange := some ⟨toRationalTime rate gc.inpoint, toRationalTime rate gc.duration⟩,
    meta := some {
      childrenProperties :=
        if gc.childrenProperties ≠ [] then some gc.childrenProperties else none,
      text :=
        if gc.childrenProperties ≠ [] then extractTitleText? gc.childrenProperties
        else none,
      clipType := some (strL ("title")) } }

/-- `Decoder.convertClip`: dispatch on the type name; an unrecognized
type name becomes a pure time-filling gap, never an error. -/
def convertClip (rate : ℚ) (gc : GClip) : Composable :=
  if gc.typeName = ClipTypeTransition then convertTransition rate gc
  else if gc.typeName = ClipTypeURI then .clip (convertURIClip rate gc)
  else if gc.typeName = ClipTypeTest then .clip (convertTestClip rate gc)
  else if gc.typeName = ClipTypeTitle then .clip (convertTitleClip rate gc)
  else .gap ⟨toRationalTime rate gc.duration⟩

/-- `Decoder.addClipsToTrack`: walk the elements with a cursor starting
at 0; insert a gap of `start - cursor` whenever an element starts past
the cursor, convert and append the element, then set the cursor to
`start + duration` (a uint64 sum). -/
def addClipsToTrack (rate : ℚ) : ℕ → List GClip → List Composable
  | _, [] => []
  | cur, gc :: rest =>
    (if cur < gc.start then
      [.gap ⟨toRationalTime rate (gc.start - cur)⟩]
    else []) ++
    (convertClip rate gc :: addClipsToTrack rate (addU64 gc.start gc.duration) rest)

/-- One source track's decoded content: per layer in document order, the
layer's elements matching the kind bitmask, walked with a fresh cursor.
(The Go map iteration order does not affect this: the per-kind element
lists are built in element order, and each kind is appended to its own
track.) -/
def trackContent (rate : ℚ) (layers : List GLayer) (ty : ℕ) : List Composable :=
  (layers.map (fun l =>
    addClipsToTrack rate 0 (l.clips.filter (fun gc => gc.trackTypes &&& ty != 0)))).flatten

/-- `Decoder.Decode` from the parsed document tree: one source track per
populated sink kind, video first, then audio; the timeline name comes
from the project metadatas.  (Several sink tracks of one kind overwrite
one another in the Go type-keyed map; the resulting content depends only
on the kind, so the embedding keys on the kind directly.) -/
def Decode (g : GES) : OTimeline :=
  let rate := extractFrameRate g.project.timeline
  { name := extractName g.project.metadatas,
    tracks :=
      (if g.project.timeline.tracks.any (fun tr => tr.trackType == TrackTypeVideo) then
        [{ name := [], kind := TrackKind.video,
           children := trackContent rate g.project.timeline.layers TrackTypeVideo }]
      else []) ++
      (if g.project.timeline.tracks.any (fun tr => tr.trackType == TrackTypeAudio) then
        [{ name := [], kind := TrackKind.audio,
           children := trackContent rate g.project.timeline.layers TrackTypeAudio }]
      else []) }

end Decoder

/-! ### Nanosecond round trip -/

lemma ratTrunc_natCast (n : ℕ) : ratTrunc ((n : ℕ) : ℚ) = (n : ℤ) := by
  unfold ratTrunc
  rw [Rat.num_natCast, Rat.den_natCast]
  push_cast
  exact Int.tdiv_one _

/-- Decoding a nanosecond count to rational time at any nonzero rate and
re-encoding it is exact (in the idealized rational arithmetic). -/
lemma toNanoseconds_toRationalTime {rate : ℚ} (hr : rate ≠ 0) (ns : ℕ) :
    Encoder.toNanoseconds (Decoder.toRationalTime rate ns) = ns := by
  unfold Encoder.toNanoseconds Decoder.toRationalTime fromSeconds RationalTime.toSeconds
  simp only
  have hg : (GSTSecond : ℚ) ≠ 0 := by norm_num [GSTSecond]
  have h1 : ((ns : ℚ) / (GSTSecond : ℚ) * rate) / rate * (GSTSecond : ℚ) = ((ns : ℕ) : ℚ) := by
    field_simp
    ring
  rw [h1, ratTrunc_natCast]
  exact Int.toNat_natCast ns

/-- The advance the encoder's cursor makes for one child. -/
def cursorStep : Composable → ℕ
  | .gap g => Encoder.toNanoseconds g.duration
  | .clip c =>
    match c.duration? with
    | some d => Encoder.toNanoseconds d
    | none => 0
  | .transition t => Encoder.toNanoseconds (t.inOffset.add t.outOffset)
  | .other _ => 0

lemma convertClip_start {c : OClip} {s pr tt id : ℕ} {gc : GClip}
    (h : Encoder.convertClip c s pr tt id = some gc) : gc.start = s := by
  unfold Encoder.convertClip at h
  cases hdur : c.duration? with
  | none => rw [hdur] at h; exact absurd h (by simp)
  | some dur =>
    rw [hdur] at h
    simp only [Option.some.injEq] at h
    rw [← h]

/-! ### C3: the gap law -/

/-- C3: on encode, a gap child emits no element and only advances the
cursor, so the next clip child is emitted at start `P + D`; on decode,
an element starting past the cursor gets a synthesized gap of exactly
the missing nanoseconds inserted before it, the cursor moves to the
element's end, and the synthesized gap re-encodes to the same nanosecond
count. -/
theorem C3_gap_law (pr tt id cur : ℕ) (g : OGap) (rest : List Composable)
    (rate : ℚ) (hrate : 0 < rate) (gc : GClip) (grest : List GClip)
    (hcur : cur < gc.start) :
    (Encoder.layerClips pr tt cur id (Composable.gap g :: rest) =
        Encoder.layerClips pr tt (addU64 cur (Encoder.toNanoseconds g.duration)) id rest) ∧
      (∀ c crest out id2 id',
        rest = Composable.clip c :: crest →
        Encoder.layerClips pr tt (addU64 cur (Encoder.toNanoseconds g.duration)) id2 rest =
          some (out, id') →
        out.head?.map (fun e => e.start) =
          some (addU64 cur (Encoder.toNanoseconds g.duration))) ∧
      (Decoder.addClipsToTrack rate cur (gc :: grest) =
        Composable.gap ⟨Decoder.toRationalTime rate (gc.start - cur)⟩ ::
          Decoder.convertClip rate gc ::
            Decoder.addClipsToTrack rate (addU64 gc.start gc.duration) grest) ∧
      Encoder.toNanoseconds (Decoder.toRationalTime rate (gc.start - cur)) =
        gc.start - cur := by
  refine ⟨rfl, ?_, ?_, toNanoseconds_toRationalTime (ne_of_gt hrate) _⟩
  · intro c crest out id2 id' hrest hrun
    subst hrest
    rw [Encoder.layerClips] at hrun
    cases hconv : Encoder.convertClip c (addU64 cur (Encoder.toNanoseconds g.duration))
        pr tt id2 with
    | none => rw [hconv] at hrun; exact absurd hrun (by simp)
    | some gc1 =>
      cases hdur : c.duration? with
      | none =>
        rw [hconv, hdur] at hrun
        exact Option.noConfusion hrun
      | some dur =>
        have heq : Encoder.layerClips pr tt (addU64 cur (Encoder.toNanoseconds g.duration)) id2
            (Composable.clip c :: crest) =
            (match Encoder.layerClips pr tt
                (addU64 (addU64 cur (Encoder.toNanoseconds g.duration))
                  (Encoder.toNanoseconds dur)) (id2 + 1) crest with
             | none => none
             | some (more, id2') => some (gc1 :: more, id2')) := by
          rw [Encoder.layerClips, hconv, hdur]
        rw [Encoder.layerClips] at heq
        rw [heq] at hrun
        cases hrec : Encoder.layerClips pr tt
            (addU64 (addU64 cur (Encoder.toNanoseconds g.duration))
              (Encoder.toNanoseconds dur)) (id2 + 1) crest with
        | none =>
          rw [hrec] at hrun
          exact Option.noConfusion hrun
        | some pr2 =>
          obtain ⟨more, id''⟩ := pr2
          rw [hrec] at hrun
          have h1 : (gc1 :: more, id'') = (out, id') := by injection hrun
          have h2 : gc1 :: more = out := congrArg Prod.fst h1
          rw [← h2]
          simp [List.head?_cons, convertClip_start hconv]
  · rw [Decoder.addClipsToTrack]
    rw [if_pos hcur]
    rfl

/-- A sample element for the C3 witness: starts at 500 with the cursor
at 0, so decode must synthesize a 500 ns gap. -/
def c3SampleClip : GClip :=
  { id := 0, assetID := [], typeName := [], layerPriority := 0, trackTypes := 4,
    start := 500, duration := 300, inpoint := 0, rate := 0,
    properties := [], metadatas := [], childrenProperties := [] }

/-- Witness for C3 at rate 25 and a concrete element starting past the
cursor. -/
theorem C3_gap_law_witness :
    ((0 : ℚ) < 25 ∧ (0 : ℕ) < c3SampleClip.start) ∧
      Decoder.addClipsToTrack 25 0 (c3SampleClip :: []) =
        Composable.gap ⟨Decoder.toRationalTime 25 (c3SampleClip.start - 0)⟩ ::
          Decoder.convertClip 25 c3SampleClip ::
            Decoder.addClipsToTrack 25
              (addU64 c3SampleClip.start c3SampleClip.duration) [] ∧
      Encoder.toNanoseconds (Decoder.toRationalTime 25 (c3SampleClip.start - 0)) =
        c3SampleClip.start - 0 :=
  ⟨⟨by norm_num, by decide⟩,
    (C3_gap_law 0 4 0 0 ⟨⟨2, 1⟩⟩ [] 25 (by norm_num) c3SampleClip []
      (by decide)).2.2.1,
    (C3_gap_law 0 4 0 0 ⟨⟨2, 1⟩⟩ [] 25 (by norm_num) c3SampleClip []
      (by decide)).2.2.2⟩

/-! ### C8: unknown type names decode to gaps, never errors -/

/-- C8: an element whose type-name is none of the four known tags
decodes to a gap of exactly the element's duration (as a nanosecond
count), never an error, and the cursor walk continues with the remaining
elements. -/
theorem C8_unknown_type_gap (rate : ℚ) (hrate : 0 < rate) (gc : GClip)
    (h1 : gc.typeName ≠ ClipTypeURI) (h2 : gc.typeName ≠ ClipTypeTransition)
    (h3 : gc.typeName ≠ ClipTypeTest) (h4 : gc.typeName ≠ ClipTypeTitle)
    (cur : ℕ) (rest : List GClip) :
    Decoder.convertClip rate gc =
        Composable.gap ⟨Decoder.toRationalTime rate gc.duration⟩ ∧
      Encoder.toNanoseconds (Decoder.toRationalTime rate gc.duration) = gc.duration ∧
      Decoder.addClipsToTrack rate cur (gc :: rest) =
        (if cur < gc.start then
          [Composable.gap ⟨Decoder.toRationalTime rate (gc.start - cur)⟩]
        else []) ++
          (Composable.gap ⟨Decoder.toRationalTime rate gc.duration⟩ ::
            Decoder.addClipsToTrack rate (addU64 gc.start gc.duration) rest) := by
  have hc : Decoder.convertClip rate gc =
      Composable.gap ⟨Decoder.toRationalTime rate gc.duration⟩ := by
    unfold Decoder.convertClip
    rw [if_neg h2, if_neg h1, if_neg h3, if_neg h4]
  refine ⟨hc, toNanoseconds_toRationalTime (ne_of_gt hrate) _, ?_⟩
  rw [Decoder.addClipsToTrack, hc]

/-- A sample element with an unrecognized type-name for the C8 witness. -/
def c8EffectClip : GClip :=
  { id := 0, assetID := [], typeName := strL ("GESEffectClip"),
    layerPriority := 0, trackTypes := 4,
    start := 0, duration := 700, inpoint := 0, rate := 0,
    properties := [], metadatas := [], childrenProperties := [] }

/-- Witness for C8 on a `GESEffectClip` element. -/
theorem C8_unknown_type_gap_witness :
    (c8EffectClip.typeName ≠ ClipTypeURI ∧ (0 : ℚ) < 30) ∧
      Decoder.convertClip 30 c8EffectClip =
        Composable.gap ⟨Decoder.toRationalTime 30 c8EffectClip.duration⟩ ∧
      Encoder.toNanoseconds (Decoder.toRationalTime 30 c8EffectClip.duration) =
        c8EffectClip.duration :=
  ⟨⟨by decide, by norm_num⟩,
    (C8_unknown_type_gap 30 (by norm_num) c8EffectClip (by decide) (by decide)
      (by decide) (by decide) 0 []).1,
    (C8_unknown_type_gap 30 (by norm_num) c8EffectClip (by decide) (by decide)
      (by decide) (by decide) 0 []).2.1⟩

/-! ### C9: unhandled track children are silently dropped -/

/-- Shifting a sink element's start. -/
def shiftStart (d : ℕ) (gc : GClip) : GClip := { gc with start := gc.start + d }

lemma convertClip_shift {c : OClip} {s pr tt id : ℕ} {gc : GClip} (d : ℕ)
    (h : Encoder.convertClip c s pr tt id = some gc) :
    Encoder.convertClip c (s + d) pr tt id = some (shiftStart d gc) := by
  unfold Encoder.convertClip at h ⊢
  cases hdur : c.duration? with
  | none =>
    rw [hdur] at h
    exact Option.noConfusion h
  | some dur =>
    rw [hdur] at h
    simp only [Option.some.injEq] at h ⊢
    rw [← h]
    rfl

lemma convertTransition_shift (tr : OTransition) (s pr tt id d : ℕ) :
    Encoder.convertTransition tr (s + d) pr tt id =
      shiftStart d (Encoder.convertTransition tr s pr tt id) := rfl

/-- Running the layer walk from a cursor shifted by `d` shifts every
emitted element's start by `d` (and nothing else), as long as no uint64
addition wraps. -/
lemma layerClips_shift (pr tt d : ℕ) :
    ∀ (rest : List Composable) (cur id : ℕ),
      cur + d + (rest.map cursorStep).sum < u64 →
      ∀ out id', Encoder.layerClips pr tt cur id rest = some (out, id') →
        Encoder.layerClips pr tt (cur + d) id rest =
          some (out.map (shiftStart d), id') := by
  intro rest
  induction rest with
  | nil =>
    intro cur id _ out id' hrun
    rw [Encoder.layerClips] at hrun ⊢
    have h1 : (([] : List GClip), id) = (out, id') := by injection hrun
    simp only [Prod.mk.injEq] at h1
    rw [← h1.1, ← h1.2]
    rfl
  | cons child crest ih =>
    intro cur id hb out id' hrun
    cases child with
    | gap g =>
      simp only [List.map_cons, List.sum_cons, cursorStep] at hb
      rw [Encoder.layerClips] at hrun ⊢
      have h1 : addU64 cur (Encoder.toNanoseconds g.duration) =
          cur + Encoder.toNanoseconds g.duration :=
        Nat.mod_eq_of_lt (by omega)
      have h2 : addU64 (cur + d) (Encoder.toNanoseconds g.duration) =
          cur + Encoder.toNanoseconds g.duration + d := by
        unfold addU64
        rw [Nat.mod_eq_of_lt (by omega)]
        omega
      rw [h1] at hrun
      rw [h2]
      exact ih (cur + Encoder.toNanoseconds g.duration) id (by omega) out id' hrun
    | clip c =>
      cases hconv : Encoder.convertClip c cur pr tt id with
      | none =>
        rw [Encoder.layerClips, hconv] at hrun
        exact Option.noConfusion hrun
      | some gc =>
        cases hdur : c.duration? with
        | none =>
          rw [Encoder.layerClips, hconv, hdur] at hrun
          exact Option.noConfusion hrun
        | some dur =>
          have hstep : cursorStep (Composable.clip c) = Encoder.toNanoseconds dur := by
            simp [cursorStep, hdur]
          simp only [List.map_cons, List.sum_cons, hstep] at hb
          have h1 : addU64 cur (Encoder.toNanoseconds dur) =
              cur + Encoder.toNanoseconds dur :=
            Nat.mod_eq_of_lt (by omega)
          have h2 : addU64 (cur + d) (Encoder.toNanoseconds dur) =
              cur + Encoder.toNanoseconds dur + d := by
            unfold addU64
            rw [Nat.mod_eq_of_lt (by omega)]
            omega
          have heqL : Encoder.layerClips pr tt cur id (Composable.clip c :: crest) =
              (match Encoder.layerClips pr tt
                  (addU64 cur (Encoder.toNanoseconds dur)) (id + 1) crest with
               | none => none
               | some (more, id2') => some (gc :: more, id2')) := by
            rw [Encoder.layerClips, hconv, hdur]
          have heqR : Encoder.layerClips pr tt (cur + d) id (Composable.clip c :: crest) =
              (match Encoder.layerClips pr tt
                  (addU64 (cur + d) (Encoder.toNanoseconds dur)) (id + 1) crest with
               | none => none
               | some (more, id2') => some (shiftStart d gc :: more, id2')) := by
            rw [Encoder.layerClips, convertClip_shift d hconv, hdur]
          rw [heqL, h1] at hrun
          rw [heqR, h2]
          cases hrec : Encoder.layerClips pr tt
              (cur + Encoder.toNanoseconds dur) (id + 1) crest with
          | none =>
            rw [hrec] at hrun
            exact Option.noConfusion hrun
          | some pr2 =>
            obtain ⟨more, id''⟩ := pr2
            rw [hrec] at hrun
            rw [ih (cur + Encoder.toNanoseconds dur) (id + 1) (by omega) more id'' hrec]
            have h3 : (gc :: more, id'') = (out, id') := by injection hrun
            simp only [Prod.mk.injEq] at h3
            rw [← h3.1, ← h3.2]
            rfl
    | transition tr =>
      simp only [List.map_cons, List.sum_cons, cursorStep] at hb
      have h1 : addU64 cur (Encoder.toNanoseconds (tr.inOffset.add tr.outOffset)) =
          cur + Encoder.toNanoseconds (tr.inOffset.add tr.outOffset) :=
        Nat.mod_eq_of_lt (by omega)
      have h2 : addU64 (cur + d) (Encoder.toNanoseconds (tr.inOffset.add tr.outOffset)) =
          cur + Encoder.toNanoseconds (tr.inOffset.add tr.outOffset) + d := by
        unfold addU64
        rw [Nat.mod_eq_of_lt (by omega)]
        omega
      have heqL : Encoder.layerClips pr tt cur id (Composable.transition tr :: crest) =
          (match Encoder.layerClips pr tt
              (addU64 cur (Encoder.toNanoseconds (tr.inOffset.add tr.outOffset)))
              (id + 1) crest with
           | none => none
           | some (more, id2') =>
             some (Encoder.convertTransition tr cur pr tt id :: more, id2')) := by
        rw [Encoder.layerClips]
      have heqR : Encoder.layerClips pr tt (cur + d) id (Composable.transition tr :: crest) =
          (match Encoder.layerClips pr tt
              (addU64 (cur + d) (Encoder.toNanoseconds (tr.inOffset.add tr.outOffset)))
              (id + 1) crest with
           | none => none
           | some (more, id2') =>
             some (shiftStart d (Encoder.convertTransition tr cur pr tt id) :: more, id2')) := by
        rw [Encoder.layerClips, convertTransition_shift]
      rw [heqL, h1] at hrun
      rw [heqR, h2]
      cases hrec : Encoder.layerClips pr tt
          (cur + Encoder.toNanoseconds (tr.inOffset.add tr.outOffset)) (id + 1) crest with
      | none =>
        rw [hrec] at hrun
        exact Option.noConfusion hrun
      | some pr2 =>
        obtain ⟨more, id''⟩ := pr2
        rw [hrec] at hrun
        rw [ih (cur + Encoder.toNanoseconds (tr.inOffset.add tr.outOffset)) (id + 1)
          (by omega) more id'' hrec]
        have h3 : (Encoder.convertTransition tr cur pr tt id :: more, id'') = (out, id') := by
          injection hrun
        simp only [Prod.mk.injEq] at h3
        rw [← h3.1, ← h3.2]
        rfl
    | other o =>
      rw [Encoder.layerClips] at hrun ⊢
      simp only [List.map_cons, List.sum_cons, cursorStep] at hb
      exact ih cur id (by omega) out id' hrun

/-- C9: a track child that is neither clip, gap nor transition is
silently dropped — the walk's result on `other :: rest` is exactly its
result on `rest` at the same cursor and clip id (no element, no error,
no cursor advance) — and, had the cursor instead advanced past the
child, every following element would start later by exactly the child's
duration; so each following sibling is emitted that much earlier than
its timeline position. -/
theorem C9_other_child_dropped (pr tt cur id : ℕ) (o : OtherItem)
    (rest : List Composable) (out : List GClip) (id' : ℕ)
    (hbound : cur + Encoder.toNanoseconds o.duration + (rest.map cursorStep).sum < u64)
    (hrun : Encoder.layerClips pr tt cur id rest = some (out, id')) :
    Encoder.layerClips pr tt cur id (Composable.other o :: rest) = some (out, id') ∧
      Encoder.layerClips pr tt (cur + Encoder.toNanoseconds o.duration) id rest =
        some (out.map (shiftStart (Encoder.toNanoseconds o.duration)), id') := by
  constructor
  · rw [Encoder.layerClips]
    exact hrun
  · exact layerClips_shift pr tt (Encoder.toNanoseconds o.duration) rest cur id
      hbound out id' hrun

/-- Witness for C9: dropping an `other` child in front of an empty tail. -/
theorem C9_other_child_dropped_witness :
    (0 + Encoder.toNanoseconds (⟨⟨3, 1⟩⟩ : OtherItem).duration +
        (([] : List Composable).map cursorStep).sum < u64) ∧
      Encoder.layerClips 0 4 0 7 (Composable.other ⟨⟨3, 1⟩⟩ :: []) = some ([], 7) := by
  have hns : Encoder.toNanoseconds (⟨⟨3, 1⟩⟩ : OtherItem).duration = 3000000000 := by
    unfold Encoder.toNanoseconds RationalTime.toSeconds
    simp only
    rw [show ((3 : ℚ) / 1 * (GSTSecond : ℚ)) = ((3000000000 : ℕ) : ℚ) from by
      norm_num [GSTSecond]]
    rw [ratTrunc_natCast]
    rfl
  have hb : 0 + Encoder.toNanoseconds (⟨⟨3, 1⟩⟩ : OtherItem).duration +
      (([] : List Composable).map cursorStep).sum < u64 := by
    rw [hns]
    norm_num [u64]
  exact ⟨hb, (C9_other_child_dropped 0 4 0 7 ⟨⟨3, 1⟩⟩ [] [] 7 hb rfl).1⟩

/-! ### C5: encode-side frame-rate inference -/

lemma findSome?_flatMap {α β γ : Type} (l : List α) (g : α → List β)
    (f : β → Option γ) :
    List.findSome? f (l.flatMap g) =
      List.findSome? (fun a => List.findSome? f (g a)) l := by
  induction l with
  | nil => rfl
  | cons a rest ih =>
    rw [List.flatMap_cons, List.findSome?_append, ih, List.findSome?_cons]
    cases List.findSome? f (g a) <;> simp [Option.or]

/-- C5, amended: the encoder's inference scans the children of every
video track in order, then of every audio track, and takes the first
clip duration rate that is positive; with none found anywhere the rate
is 25. -/
theorem C5_rate_inference (t : OTimeline) :
    Encoder.extractFrameRate t =
      (List.findSome? Encoder.clipPositiveRate
        ((t.videoTracks ++ t.audioTracks).flatMap (fun tr => tr.children))).getD 25 := by
  unfold Encoder.extractFrameRate
  rw [findSome?_flatMap, List.findSome?_append]
  cases hv : List.findSome?
      (fun tr => List.findSome? Encoder.clipPositiveRate tr.children) t.videoTracks with
  | some r => simp [Option.or]
  | none =>
    cases ha : List.findSome?
        (fun tr => List.findSome? Encoder.clipPositiveRate tr.children) t.audioTracks with
    | some r => simp [Option.or]
    | none => simp [Option.or]

/-- The procedure claim C5 describes, following its words: scan only the
first video track's children, then only the first audio track's. -/
def claimedExtractFrameRate (t : OTimeline) : ℚ :=
  match t.videoTracks.head?.bind
      (fun tr => tr.children.findSome? Encoder.clipPositiveRate) with
  | some r => r
  | none =>
    match t.audioTracks.head?.bind
        (fun tr => tr.children.findSome? Encoder.clipPositiveRate) with
    | some r => r
    | none => 25

/-- A clip whose duration carries the given rate. -/
def c5Clip (r : ℚ) : Composable :=
  Composable.clip
    { name := strL ("c"),
      mediaReference := some (MediaReference.external ⟨strL ("file:///a")⟩),
      sourceRange := some ⟨⟨0, r⟩, ⟨50, r⟩⟩,
      meta := none }

/-- Two video tracks (the first without any rate-bearing clip) and one
audio track: the code finds the second video track's rate 30; the
claim's first-video-then-first-audio scan would find the audio rate
48. -/
def c5Timeline : OTimeline :=
  { name := [],
    tracks := [⟨[], TrackKind.video, []⟩,
               ⟨[], TrackKind.video, [c5Clip 30]⟩,
               ⟨[], TrackKind.audio, [c5Clip 48]⟩] }

/-- C5, counterexample: the code scans all video tracks, not only the
first one. -/
theorem C5_counterexample :
    Encoder.extractFrameRate c5Timeline = 30 ∧
      claimedExtractFrameRate c5Timeline = 48 ∧ (30 : ℚ) ≠ 48 := by
  refine ⟨by decide, by decide, by norm_num⟩

/-! ### C6: decode-side frame rate comes from track properties -/

/-- C6, amended, part of the characterization: the decoder's rate never
depends on the timeline-level metadatas (first conjunct), is the first
video track's positive restriction-caps fraction when there is one, skips
non-video tracks and video tracks without a positive parsed rate, and
defaults to 25. -/
theorem C6_decode_framerate (tl : GTimeline) (m : Str) (tr : GTrack)
    (rest : List GTrack) :
    (Decoder.extractFrameRate { tl with metadatas := m } =
        Decoder.extractFrameRate tl) ∧
      (tr.trackType = TrackTypeVideo →
        0 < Decoder.extractFrameRateFromProperties tr.properties →
        Decoder.extractFrameRate { tl with tracks := tr :: rest } =
          Decoder.extractFrameRateFromProperties tr.properties) ∧
      (tr.trackType ≠ TrackTypeVideo →
        Decoder.extractFrameRate { tl with tracks := tr :: rest } =
          Decoder.extractFrameRate { tl with tracks := rest }) ∧
      (¬ 0 < Decoder.extractFrameRateFromProperties tr.properties →
        Decoder.extractFrameRate { tl with tracks := tr :: rest } =
          Decoder.extractFrameRate { tl with tracks := rest }) ∧
      Decoder.extractFrameRate { tl with tracks := [] } = 25 := by
  refine ⟨rfl, ?_, ?_, ?_, rfl⟩
  · intro h4 hpos
    unfold Decoder.extractFrameRate
    simp only [List.findSome?_cons]
    rw [if_pos h4, if_pos hpos]
  · intro hne
    unfold Decoder.extractFrameRate
    simp only [List.findSome?_cons]
    rw [if_neg hne]
  · intro hnpos
    unfold Decoder.extractFrameRate
    simp only [List.findSome?_cons]
    by_cases h4 : tr.trackType = TrackTypeVideo
    · rw [if_pos h4, if_neg hnpos]
    · rw [if_neg h4]

/-- The concrete video track of the C6 counterexample: restriction caps
carrying 24/1. -/
def c6Track : GTrack :=
  { caps := strL ("video/x-raw(ANY)"), trackType := 4, trackID := 0,
    properties :=
      strL ("properties, restriction-caps=(string)\"video/x-raw\\,\\ framerate\\=\\(fraction\\)24/1\";"),
    metadatas := [] }

/-- The concrete GES timeline of the C6 counterexample: the timeline
metadatas say 30/1, the video track's restriction caps say 24/1. -/
def c6Timeline : GTimeline :=
  { properties := [],
    metadatas := strL ("metadatas, framerate=(fraction)30/1;"),
    tracks := [c6Track],
    layers := [] }

lemma c6_frfp :
    Decoder.extractFrameRateFromProperties c6Track.properties = 24 := by
  have hscan1 : scanValue Decoder.capsStop (strL ("restriction-caps=(string)"))
      c6Track.properties =
      some (strL ("video/x-raw\\,\\ framerate\\=\\(fraction\\)24/1")) := by decide
  have hscan2 : scanFramerate
      (strL ("video/x-raw\\,\\ framerate\\=\\(fraction\\)24/1")) = some (24, 1) := by
    decide
  unfold Decoder.extractFrameRateFromProperties
  rw [hscan1]
  simp only [hscan2]
  norm_num

/-- C6, counterexample: the decoder's rate is 24 (from the video track's
restriction caps) although the timeline-level metadatas carry the
framerate fraction 30/1. -/
theorem C6_counterexample :
    Decoder.extractFrameRate c6Timeline = 24 ∧
      scanFramerate c6Timeline.metadatas = some (30, 1) ∧ (24 : ℚ) ≠ 30 := by
  refine ⟨?_, by decide, by norm_num⟩
  unfold Decoder.extractFrameRate
  simp only [c6Timeline, List.findSome?_cons]
  rw [if_pos (by decide : c6Track.trackType = TrackTypeVideo)]
  rw [c6_frfp]
  norm_num

/-- Witness for C6 on the concrete 24/1 video track. -/
theorem C6_decode_framerate_witness :
    (c6Track.trackType = TrackTypeVideo ∧
        (0 : ℚ) < Decoder.extractFrameRateFromProperties c6Track.properties) ∧
      Decoder.extractFrameRate
          { properties := [], metadatas := [], tracks := c6Track :: [], layers := [] } =
        Decoder.extractFrameRateFromProperties c6Track.properties := by
  have hpos : (0 : ℚ) < Decoder.extractFrameRateFromProperties c6Track.properties := by
    rw [c6_frfp]
    norm_num
  exact ⟨⟨by decide, hpos⟩,
    (C6_decode_framerate
        { properties := [], metadatas := [], tracks := [], layers := [] }
        [] c6Track []).2.1 (by decide) hpos⟩

/-! ### C1: the round trip

The nanosecond-level view below is the comparison lens of the round-trip
claim: walking a track's children with the encoder's cursor arithmetic,
it lists every clip's start position, duration and inpoint in
nanoseconds together with its name and URI. -/

/-- One clip's data as the round-trip claim compares it. -/
structure ClipInfo where
  startNs : ℕ
  durNs : ℕ
  inNs : ℕ
  name : Str
  uri : Str
deriving DecidableEq

/-- The view of one clip at a given cursor position. -/
def clipInfoOf (cur : ℕ) (c : OClip) : ClipInfo :=
  { startNs := cur,
    durNs :=
      match c.duration? with
      | some d => Encoder.toNanoseconds d
      | none => 0,
    inNs :=
      match c.sourceRange with
      | some sr => Encoder.toNanoseconds sr.startTime
      | none => 0,
    name := c.name,
    uri :=
      match c.mediaReference with
      | some (MediaReference.external ref) => ref.targetURL
      | _ => [] }

/-- The nanosecond view of a child list, walked with a cursor. -/
def clipView : ℕ → List Composable → List ClipInfo
  | _, [] => []
  | cur, Composable.clip c :: rest =>
    clipInfoOf cur c :: clipView (cur + cursorStep (Composable.clip c)) rest
  | cur, Composable.gap g :: rest =>
    clipView (cur + cursorStep (Composable.gap g)) rest
  | cur, Composable.transition tr :: rest =>
    clipView (cur + cursorStep (Composable.transition tr)) rest
  | cur, Composable.other o :: rest =>
    clipView (cur + cursorStep (Composable.other o)) rest

/-- The number of clip children. -/
def clipCount (children : List Composable) : ℕ :=
  (children.filter (fun child =>
    match child with
    | Composable.clip _ => true
    | _ => false)).length

/-- Names that survive the properties string and its regex extraction. -/
def SafeName (s : Str) : Prop := s ≠ [] ∧ '\\' ∉ s ∧ '"' ∉ s

/-- The restricted child class of the amended round-trip claim. -/
def GoodChild : Composable → Prop
  | Composable.clip c =>
    SafeName c.name ∧
      (∃ ref, c.mediaReference = some (MediaReference.external ref) ∧
        ref.targetURL ≠ []) ∧
      (∃ sr, c.sourceRange = some sr)
  | Composable.gap _ => True
  | Composable.transition tr => SafeName tr.name
  | Composable.other _ => False

/-- A track in the restricted class: every child good, total nanosecond
length within uint64. -/
def GoodTrack (tr : OTrack) : Prop :=
  (∀ child ∈ tr.children, GoodChild child) ∧
    (tr.children.map cursorStep).sum < u64

/-- A timeline in the restricted class of the amended round-trip claim. -/
def GoodTimeline (t : OTimeline) : Prop :=
  ('\\' ∉ t.name ∧ '"' ∉ t.name) ∧
    t.videoTracks.length ≤ 1 ∧ t.audioTracks.length ≤ 1 ∧
    ∀ tr ∈ t.tracks, GoodTrack tr

/-- The composition the round-trip claim is about. -/
def decodeEncode (t : OTimeline) : Option OTimeline :=
  (Encoder.Encode t).map Decoder.Decode

lemma add_halves_rt (v r : ℚ) :
    RationalTime.add ⟨v / 2, r⟩ ⟨v / 2, r⟩ = ⟨v, r⟩ := by
  unfold RationalTime.add
  rw [if_pos rfl]
  simp only [RationalTime.mk.injEq]
  constructor
  · ring
  · trivial

lemma clipView_gapfill {decRate : ℚ} (hdr : decRate ≠ 0) {cur cur' : ℕ}
    (h : cur ≤ cur') (l : List Composable) :
    clipView cur
        ((if cur < cur' then
          [Composable.gap ⟨Decoder.toRationalTime decRate (cur' - cur)⟩]
        else []) ++ l) =
      clipView cur' l := by
  by_cases hlt : cur < cur'
  · rw [if_pos hlt, List.singleton_append, clipView]
    rw [show cursorStep (Composable.gap ⟨Decoder.toRationalTime decRate (cur' - cur)⟩) =
        Encoder.toNanoseconds (Decoder.toRationalTime decRate (cur' - cur)) from rfl]
    rw [toNanoseconds_toRationalTime hdr, Nat.add_sub_cancel' h]
  · rw [if_neg hlt, List.nil_append]
    rw [le_antisymm h (not_lt.mp hlt)]

/-- The encoder's element for a clip of the restricted class. -/
lemma convertClip_good (c : OClip) (sr : TimeRange) (hsr : c.sourceRange = some sr)
    (ref : ExternalReference)
    (href : c.mediaReference = some (MediaReference.external ref))
    (hurl : ref.targetURL ≠ []) (hname : c.name ≠ [])
    (s pr tt id : ℕ) :
    Encoder.convertClip c s pr tt id = some {
      id := id, assetID := ref.targetURL, typeName := ClipTypeURI,
      layerPriority := pr, trackTypes := tt, start := s,
      duration := Encoder.toNanoseconds sr.duration,
      inpoint := Encoder.toNanoseconds sr.startTime, rate := 0,
      properties := Encoder.buildClipProperties c.name,
      metadatas := [],
      childrenProperties := Encoder.extractChildrenProperties c } := by
  unfold Encoder.convertClip OClip.duration?
  rw [hsr, href]
  simp [hname, hurl]

lemma decoder_convertClip_uri (decRate : ℚ) (gc : GClip)
    (h : gc.typeName = ClipTypeURI) :
    Decoder.convertClip decRate gc =
      Composable.clip (Decoder.convertURIClip decRate gc) := by
  unfold Decoder.convertClip
  rw [h, if_neg (by decide), if_pos rfl]

lemma decoder_convertClip_transition (decRate : ℚ) (gc : GClip)
    (h : gc.typeName = ClipTypeTransition) :
    Decoder.convertClip decRate gc = Decoder.convertTransition decRate gc := by
  unfold Decoder.convertClip
  rw [h, if_pos rfl]

lemma filter_all_true {p : GClip → Bool} {l : List GClip}
    (h : ∀ gc ∈ l, p gc = true) : l.filter p = l :=
  List.filter_eq_self.mpr h

lemma filter_all_false {p : GClip → Bool} {l : List GClip}
    (h : ∀ gc ∈ l, p gc = false) : l.filter p = [] := by
  induction l with
  | nil => rfl
  | cons gc rest ih =>
    rw [List.filter_cons, if_neg (by simp [h gc (by simp)])]
    exact ih fun x hx => h x (by simp [hx])

lemma findSome?_prop {α β : Type} {f : α → Option β} {P : β → Prop}
    (hf : ∀ a b, f a = some b → P b) :
    ∀ (l : List α) (b : β), List.findSome? f l = some b → P b := by
  intro l
  induction l with
  | nil => intro b hb; rw [List.findSome?_nil] at hb; exact Option.noConfusion hb
  | cons a rest ih =>
    intro b hb
    rw [List.findSome?_cons] at hb
    cases ha : f a with
    | some b' =>
      rw [ha] at hb
      have : b' = b := by injection hb
      exact this ▸ hf a b' ha
    | none =>
      rw [ha] at hb
      exact ih b hb

/-- The decoder's rate is always positive: either a parsed rate that
passed the positivity check, or the default 25. -/
lemma decoder_rate_pos (tl : GTimeline) : 0 < Decoder.extractFrameRate tl := by
  unfold Decoder.extractFrameRate
  cases hfind : List.findSome? (fun tr =>
      if tr.trackType = TrackTypeVideo then
        (if 0 < Decoder.extractFrameRateFromProperties tr.properties then
          some (Decoder.extractFrameRateFromProperties tr.properties) else none)
      else none) tl.tracks with
  | some r =>
    refine findSome?_prop (P := fun r => (0 : ℚ) < r) ?_ tl.tracks r hfind
    intro a b hab
    by_cases h4 : a.trackType = TrackTypeVideo
    · rw [if_pos h4] at hab
      by_cases hpos : 0 < Decoder.extractFrameRateFromProperties a.properties
      · rw [if_pos hpos] at hab
        have : Decoder.extractFrameRateFromProperties a.properties = b := by
          injection hab
        exact this ▸ hpos
      · rw [if_neg hpos] at hab
        exact Option.noConfusion hab
    · rw [if_neg h4] at hab
      exact Option.noConfusion hab
  | none => norm_num

lemma length_le_one_cases {α : Type} (l : List α) (h : l.length ≤ 1) :
    l = [] ∨ ∃ a, l = [a] := by
  cases l with
  | nil => exact Or.inl rfl
  | cons a rest =>
    cases rest with
    | nil => exact Or.inr ⟨a, rfl⟩
    | cons b r2 => simp at h

/-- The sink element the encoder emits for a clip of the restricted
class (named for reuse in the round-trip proof). -/
def uriElem (ref : ExternalReference) (c : OClip) (sr : TimeRange)
    (s pr tt id : ℕ) : GClip :=
  { id := id, assetID := ref.targetURL, typeName := ClipTypeURI,
    layerPriority := pr, trackTypes := tt, start := s,
    duration := Encoder.toNanoseconds sr.duration,
    inpoint := Encoder.toNanoseconds sr.startTime, rate := 0,
    properties := Encoder.buildClipProperties c.name,
    metadatas := [],
    childrenProperties := Encoder.extractChildrenProperties c }

lemma convertClip_good' (c : OClip) (sr : TimeRange) (hsr : c.sourceRange = some sr)
    (ref : ExternalReference)
    (href : c.mediaReference = some (MediaReference.external ref))
    (hurl : ref.targetURL ≠ []) (hname : c.name ≠ [])
    (s pr tt id : ℕ) :
    Encoder.convertClip c s pr tt id = some (uriElem ref c sr s pr tt id) := by
  rw [convertClip_good c sr hsr ref href hurl hname s pr tt id]
  rfl

lemma cursorStep_decoded_transition (decRate : ℚ) (hdr : decRate ≠ 0) (gc : GClip) :
    cursorStep (Decoder.convertTransition decRate gc) = gc.duration := by
  unfold Decoder.convertTransition
  simp only [cursorStep]
  rw [add_halves_rt]
  rw [show (⟨(Decoder.toRationalTime decRate gc.duration).value,
      (Decoder.toRationalTime decRate gc.duration).rate⟩ : RationalTime) =
    Decoder.toRationalTime decRate gc.duration from rfl]
  exact toNanoseconds_toRationalTime hdr _

lemma convertTransition_is_transition (decRate : ℚ) (gc : GClip) :
    ∃ t, Decoder.convertTransition decRate gc = Composable.transition t :=
  ⟨_, rfl⟩

lemma clipInfoOf_decoded_uri (decRate : ℚ) (hdr : decRate ≠ 0)
    (c : OClip) (sr : TimeRange) (hsr : c.sourceRange = some sr)
    (ref : ExternalReference)
    (href : c.mediaReference = some (MediaReference.external ref))
    (hname : c.name ≠ []) (hnbs : '\\' ∉ c.name) (hnq : '"' ∉ c.name)
    (s s2 pr tt id : ℕ) :
    clipInfoOf s2 (Decoder.convertURIClip decRate (uriElem ref c sr s pr tt id)) =
      clipInfoOf s2 c := by
  have hdur : c.duration? = some sr.duration := by
    unfold OClip.duration?
    rw [hsr]
    rfl
  have hdecname : Decoder.extractName
      (Encoder.buildClipProperties c.name) = c.name :=
    extractName_buildClipProperties c.name hname hnbs hnq
  unfold Decoder.convertURIClip uriElem clipInfoOf OClip.duration?
  simp only [Option.map_some, hdur, hsr, href, hdecname]
  simp [toNanoseconds_toRationalTime hdr]

lemma cursorStep_decoded_uri (decRate : ℚ) (hdr : decRate ≠ 0)
    (ref : ExternalReference) (c : OClip) (sr : TimeRange) (s pr tt id : ℕ) :
    cursorStep (Composable.clip
        (Decoder.convertURIClip decRate (uriElem ref c sr s pr tt id))) =
      Encoder.toNanoseconds sr.duration := by
  unfold Decoder.convertURIClip
  simp [cursorStep, OClip.duration?, uriElem, toNanoseconds_toRationalTime hdr]

lemma clipCount_cons_clip (c : OClip) (l : List Composable) :
    clipCount (Composable.clip c :: l) = clipCount l + 1 := by
  simp [clipCount, List.filter_cons]

lemma clipCount_cons_gap (g : OGap) (l : List Composable) :
    clipCount (Composable.gap g :: l) = clipCount l := by
  simp [clipCount, List.filter_cons]

lemma clipCount_cons_transition (t : OTransition) (l : List Composable) :
    clipCount (Composable.transition t :: l) = clipCount l := by
  simp [clipCount, List.filter_cons]

lemma clipCount_gapfill (decRate : ℚ) (cur cur' : ℕ) (l : List Composable) :
    clipCount ((if cur < cur' then
        [Composable.gap ⟨Decoder.toRationalTime decRate (cur' - cur)⟩]
      else []) ++ l) = clipCount l := by
  by_cases hlt : cur < cur'
  · rw [if_pos hlt, List.singleton_append, clipCount_cons_gap]
  · rw [if_neg hlt, List.nil_append]

/-- The heart of the round trip: decoding what the layer walk emitted
from cursor `cur'`, with the decode cursor standing at `cur ≤ cur'`,
reproduces the source children's nanosecond view and clip count. -/
lemma decode_encode_children (decRate : ℚ) (hdr : decRate ≠ 0) (pr tt : ℕ) :
    ∀ (children : List Composable) (cur cur' id : ℕ),
      cur ≤ cur' →
      (∀ child ∈ children, GoodChild child) →
      cur' + (children.map cursorStep).sum < u64 →
      ∃ out id',
        Encoder.layerClips pr tt cur' id children = some (out, id') ∧
          clipView cur (Decoder.addClipsToTrack decRate cur out) =
            clipView cur' children ∧
          clipCount (Decoder.addClipsToTrack decRate cur out) = clipCount children ∧
          ∀ gc ∈ out, gc.trackTypes = tt := by
  intro children
  induction children with
  | nil =>
    intro cur cur' id hle hg hb
    exact ⟨[], id, by rw [Encoder.layerClips], rfl, rfl, by simp⟩
  | cons child rest ih =>
    intro cur cur' id hle hg hb
    have hgrest : ∀ x ∈ rest, GoodChild x := fun x hx => hg x (by simp [hx])
    cases child with
    | gap g =>
      simp only [List.map_cons, List.sum_cons, cursorStep] at hb
      obtain ⟨out, id', hrun, hview, hcount, htt⟩ :=
        ih cur (cur' + Encoder.toNanoseconds g.duration) id (by omega) hgrest (by omega)
      have hadd : addU64 cur' (Encoder.toNanoseconds g.duration) =
          cur' + Encoder.toNanoseconds g.duration :=
        Nat.mod_eq_of_lt (by omega)
      refine ⟨out, id', ?_, ?_, ?_, htt⟩
      · rw [Encoder.layerClips, hadd]
        exact hrun
      · have hsrc : clipView cur' (Composable.gap g :: rest) =
            clipView (cur' + Encoder.toNanoseconds g.duration) rest := by
          rw [clipView]
          rfl
        rw [hsrc]
        exact hview
      · rw [hcount, clipCount_cons_gap]
    | clip c =>
      obtain ⟨⟨hname, hnbs, hnq⟩, ⟨ref, href, hurl⟩, ⟨sr, hsr⟩⟩ :=
        hg (Composable.clip c) (by simp)
      have hdur : c.duration? = some sr.duration := by
        unfold OClip.duration?
        rw [hsr]
        rfl
      have hstep : cursorStep (Composable.clip c) =
          Encoder.toNanoseconds sr.duration := by
        simp [cursorStep, hdur]
      simp only [List.map_cons, List.sum_cons, hstep] at hb
      have hconv := convertClip_good' c sr hsr ref href hurl hname cur' pr tt id
      obtain ⟨out', id', hrun, hview, hcount, htt⟩ :=
        ih (cur' + Encoder.toNanoseconds sr.duration)
          (cur' + Encoder.toNanoseconds sr.duration) (id + 1) (le_refl _) hgrest
          (by omega)
      have hadd : addU64 cur' (Encoder.toNanoseconds sr.duration) =
          cur' + Encoder.toNanoseconds sr.duration :=
        Nat.mod_eq_of_lt (by omega)
      refine ⟨uriElem ref c sr cur' pr tt id :: out', id', ?_, ?_, ?_, ?_⟩
      · have heq : Encoder.layerClips pr tt cur' id (Composable.clip c :: rest) =
            (match Encoder.layerClips pr tt
                (addU64 cur' (Encoder.toNanoseconds sr.duration)) (id + 1) rest with
             | none => none
             | some (more, id2') => some (uriElem ref c sr cur' pr tt id :: more, id2')) := by
          rw [Encoder.layerClips, hconv, hdur]
        rw [heq, hadd, hrun]
      · rw [Decoder.addClipsToTrack]
        rw [decoder_convertClip_uri decRate _ rfl]
        rw [show addU64 (uriElem ref c sr cur' pr tt id).start
            (uriElem ref c sr cur' pr tt id).duration =
          addU64 cur' (Encoder.toNanoseconds sr.duration) from rfl]
        rw [hadd]
        rw [show (uriElem ref c sr cur' pr tt id).start = cur' from rfl]
        rw [clipView_gapfill hdr hle]
        rw [clipView]
        rw [clipInfoOf_decoded_uri decRate hdr c sr hsr ref href hname hnbs hnq]
        rw [cursorStep_decoded_uri decRate hdr ref c sr cur' pr tt id]
        have hsrc : clipView cur' (Composable.clip c :: rest) =
            clipInfoOf cur' c ::
              clipView (cur' + Encoder.toNanoseconds sr.duration) rest := by
          rw [clipView, hstep]
        rw [hsrc, hview]
      · rw [Decoder.addClipsToTrack]
        rw [decoder_convertClip_uri decRate _ rfl]
        rw [show addU64 (uriElem ref c sr cur' pr tt id).start
            (uriElem ref c sr cur' pr tt id).duration =
          addU64 cur' (Encoder.toNanoseconds sr.duration) from rfl]
        rw [hadd]
        rw [show (uriElem ref c sr cur' pr tt id).start = cur' from rfl]
        rw [show ((if cur < cur' then
            [Composable.gap ⟨Decoder.toRationalTime decRate (cur' - cur)⟩]
          else []) ++
            (Composable.clip (Decoder.convertURIClip decRate
                (uriElem ref c sr cur' pr tt id)) ::
              Decoder.addClipsToTrack decRate (cur' + Encoder.toNanoseconds sr.duration)
                out')) =
          (if cur < cur' then
            [Composable.gap ⟨Decoder.toRationalTime decRate (cur' - cur)⟩]
          else []) ++
            (Composable.clip (Decoder.convertURIClip decRate
                (uriElem ref c sr cur' pr tt id)) ::
              Decoder.addClipsToTrack decRate (cur' + Encoder.toNanoseconds sr.duration)
                out') from rfl]
        rw [clipCount_gapfill, clipCount_cons_clip, hcount, clipCount_cons_clip]
      · intro gc hgc
        rcases List.mem_cons.mp hgc with h | h
        · rw [h]
          rfl
        · exact htt gc h
    | transition tr =>
      obtain ⟨hname, hnbs, hnq⟩ := hg (Composable.transition tr) (by simp)
      simp only [List.map_cons, List.sum_cons, cursorStep] at hb
      obtain ⟨out', id', hrun, hview, hcount, htt⟩ :=
        ih (cur' + Encoder.toNanoseconds (tr.inOffset.add tr.outOffset))
          (cur' + Encoder.toNanoseconds (tr.inOffset.add tr.outOffset)) (id + 1)
          (le_refl _) hgrest (by omega)
      have hadd : addU64 cur' (Encoder.toNanoseconds (tr.inOffset.add tr.outOffset)) =
          cur' + Encoder.toNanoseconds (tr.inOffset.add tr.outOffset) :=
        Nat.mod_eq_of_lt (by omega)
      refine ⟨Encoder.convertTransition tr cur' pr tt id :: out', id', ?_, ?_, ?_, ?_⟩
      · have heq : Encoder.layerClips pr tt cur' id (Composable.transition tr :: rest) =
            (match Encoder.layerClips pr tt
                (addU64 cur' (Encoder.toNanoseconds (tr.inOffset.add tr.outOffset)))
                (id + 1) rest with
             | none => none
             | some (more, id2') =>
               some (Encoder.convertTransition tr cur' pr tt id :: more, id2')) := by
          rw [Encoder.layerClips]
        rw [heq, hadd, hrun]
      · rw [Decoder.addClipsToTrack]
        rw [decoder_convertClip_transition decRate _ rfl]
        rw [show addU64 (Encoder.convertTransition tr cur' pr tt id).start
            (Encoder.convertTransition tr cur' pr tt id).duration =
          addU64 cur' (Encoder.toNanoseconds (tr.inOffset.add tr.outOffset)) from rfl]
        rw [hadd]
        rw [show (Encoder.convertTransition tr cur' pr tt id).start = cur' from rfl]
        rw [clipView_gapfill hdr hle]
        obtain ⟨dt, hdt⟩ := convertTransition_is_transition decRate
          (Encoder.convertTransition tr cur' pr tt id)
        rw [hdt, clipView]
        have hstepdec : cursorStep (Composable.transition dt) =
            Encoder.toNanoseconds (tr.inOffset.add tr.outOffset) := by
          rw [← hdt, cursorStep_decoded_transition decRate hdr]
          rfl
        rw [hstepdec]
        have hsrc : clipView cur' (Composable.transition tr :: rest) =
            clipView (cur' + Encoder.toNanoseconds (tr.inOffset.add tr.outOffset))
              rest := by
          rw [clipView]
          rfl
        rw [hsrc]
        exact hview
      · rw [Decoder.addClipsToTrack]
        rw [decoder_convertClip_transition decRate _ rfl]
        rw [show (Encoder.convertTransition tr cur' pr tt id).start = cur' from rfl]
        rw [show addU64 cur'
            (Encoder.convertTransition tr cur' pr tt id).duration =
          addU64 cur' (Encoder.toNanoseconds (tr.inOffset.add tr.outOffset)) from rfl]
        rw [hadd]
        obtain ⟨dt, hdt⟩ := convertTransition_is_transition decRate
          (Encoder.convertTransition tr cur' pr tt id)
        rw [hdt]
        rw [clipCount_gapfill, clipCount_cons_transition, hcount,
          clipCount_cons_transition]
      · intro gc hgc
        rcases List.mem_cons.mp hgc with h | h
        · rw [h]
          rfl
        · exact htt gc h
    | other o =>
      exact absurd (hg (Composable.other o) (by simp)) (by simp [GoodChild])

/-- One good track encodes to one layer whose decoded walk reproduces
the track's nanosecond view. -/
lemma track_roundtrip (decRate : ℚ) (hdr : decRate ≠ 0) (pr tt id : ℕ)
    (tr : OTrack) (hG : GoodTrack tr) :
    ∃ layer id', Encoder.convertTrackToLayer tr pr id tt = some (layer, id') ∧
      clipView 0 (Decoder.addClipsToTrack decRate 0 layer.clips) =
        clipView 0 tr.children ∧
      clipCount (Decoder.addClipsToTrack decRate 0 layer.clips) =
        clipCount tr.children ∧
      ∀ gc ∈ layer.clips, gc.trackTypes = tt := by
  obtain ⟨out, id', hrun, hview, hcount, htt⟩ :=
    decode_encode_children decRate hdr pr tt tr.children 0 0 id (le_refl 0) hG.1
      (by have := hG.2; omega)
  refine ⟨⟨pr, strL ("properties, auto-transition=(boolean)true;"),
      strL ("metadatas, volume=(float)1;"), out⟩, id', ?_, hview, hcount, htt⟩
  unfold Encoder.convertTrackToLayer
  rw [hrun]

/-- The video sink track element the encoder emits. -/
def videoGTrack (rate : ℚ) : GTrack :=
  ⟨strL ("video/x-raw(ANY)"), TrackTypeVideo, 0,
    Encoder.buildVideoTrackProperties rate, strL ("metadatas;")⟩

/-- The audio sink track element the encoder emits (`trackID` 1 when a
video track precedes it, 0 otherwise). -/
def audioGTrack (tid : ℕ) : GTrack :=
  ⟨strL ("audio/x-raw(ANY)"), TrackTypeAudio, tid,
    Encoder.buildAudioTrackProperties, strL ("metadatas;")⟩

/-- The sink document for given track elements and layers. -/
def gesOf (tname : Str) (rate : ℚ) (gtracks : List GTrack)
    (layers : List GLayer) : GES :=
  ⟨strL ("0.3"),
    ⟨strL ("properties;"), Encoder.buildProjectMetadatas tname,
      ⟨Encoder.buildTimelineProperties, Encoder.buildTimelineMetadatas rate,
        gtracks, layers⟩⟩⟩

lemma encode_eq_both (t : OTimeline) (vt at' : OTrack)
    (hvt : t.videoTracks = [vt]) (hat : t.audioTracks = [at'])
    (vlayer alayer : GLayer) (id1 id2 : ℕ)
    (hVL : Encoder.convertTrackToLayer vt 0 0 TrackTypeVideo = some (vlayer, id1))
    (hAL : Encoder.convertTrackToLayer at' 1 id1 TrackTypeAudio = some (alayer, id2)) :
    Encoder.Encode t = some (gesOf t.name (Encoder.extractFrameRate t)
      [videoGTrack (Encoder.extractFrameRate t), audioGTrack 1]
      [vlayer, alayer]) := by
  unfold Encoder.Encode
  rw [hvt, hat]
  simp only [Encoder.convertTracks, hVL, hAL]
  rfl

lemma encode_eq_video (t : OTimeline) (vt : OTrack)
    (hvt : t.videoTracks = [vt]) (hat : t.audioTracks = [])
    (vlayer : GLayer) (id1 : ℕ)
    (hVL : Encoder.convertTrackToLayer vt 0 0 TrackTypeVideo = some (vlayer, id1)) :
    Encoder.Encode t = some (gesOf t.name (Encoder.extractFrameRate t)
      [videoGTrack (Encoder.extractFrameRate t)] [vlayer]) := by
  unfold Encoder.Encode
  rw [hvt, hat]
  simp only [Encoder.convertTracks, hVL]
  rfl

lemma encode_eq_audio (t : OTimeline) (at' : OTrack)
    (hvt : t.videoTracks = []) (hat : t.audioTracks = [at'])
    (alayer : GLayer) (id2 : ℕ)
    (hAL : Encoder.convertTrackToLayer at' 0 0 TrackTypeAudio = some (alayer, id2)) :
    Encoder.Encode t = some (gesOf t.name (Encoder.extractFrameRate t)
      [audioGTrack 0] [alayer]) := by
  unfold Encoder.Encode
  rw [hvt, hat]
  simp only [Encoder.convertTracks, hAL]
  rfl

lemma encode_eq_none (t : OTimeline)
    (hvt : t.videoTracks = []) (hat : t.audioTracks = []) :
    Encoder.Encode t = some (gesOf t.name (Encoder.extractFrameRate t) [] []) := by
  unfold Encoder.Encode
  rw [hvt, hat]
  rfl

lemma trackContent_keep (decRate : ℚ) (ty : ℕ) (l : GLayer)
    (h : ∀ gc ∈ l.clips, (gc.trackTypes &&& ty != 0) = true) :
    Decoder.addClipsToTrack decRate 0
        (l.clips.filter (fun gc => gc.trackTypes &&& ty != 0)) =
      Decoder.addClipsToTrack decRate 0 l.clips := by
  rw [filter_all_true h]

lemma trackContent_drop (decRate : ℚ) (ty : ℕ) (l : GLayer)
    (h : ∀ gc ∈ l.clips, (gc.trackTypes &&& ty != 0) = false) :
    Decoder.addClipsToTrack decRate 0
        (l.clips.filter (fun gc => gc.trackTypes &&& ty != 0)) = [] := by
  rw [filter_all_false h]
  rfl

/-- C1, amended: for a timeline of the restricted class — at most one
track per kind, children only clips, gaps and transitions, clips with
nonempty external-reference URIs and present source ranges, clip and
transition names nonempty and free of backslash and double quote, the
timeline name free of backslash and double quote, and each track's total
length within uint64 — decoding the encoded document preserves the
timeline name, the per-kind track counts, the per-track clip counts and
every clip's nanosecond view (start, duration, inpoint, name, URI). -/
theorem C1_roundtrip (t : OTimeline) (h : GoodTimeline t) :
    (decodeEncode t).map OTimeline.name = some t.name ∧
      (decodeEncode t).map (fun s => s.videoTracks.length) =
        some t.videoTracks.length ∧
      (decodeEncode t).map (fun s => s.audioTracks.length) =
        some t.audioTracks.length ∧
      (decodeEncode t).map (fun s => s.videoTracks.map (fun tr => clipCount tr.children)) =
        some (t.videoTracks.map (fun tr => clipCount tr.children)) ∧
      (decodeEncode t).map (fun s => s.audioTracks.map (fun tr => clipCount tr.children)) =
        some (t.audioTracks.map (fun tr => clipCount tr.children)) ∧
      (decodeEncode t).map (fun s => s.videoTracks.map (fun tr => clipView 0 tr.children)) =
        some (t.videoTracks.map (fun tr => clipView 0 tr.children)) ∧
      (decodeEncode t).map (fun s => s.audioTracks.map (fun tr => clipView 0 tr.children)) =
        some (t.audioTracks.map (fun tr => clipView 0 tr.children)) := by
  obtain ⟨⟨hnb, hnq⟩, hv1, ha1, htr⟩ := h
  have hname := extractName_buildProjectMetadatas t.name hnb hnq
  rcases length_le_one_cases _ hv1 with hvt | ⟨vt, hvt⟩ <;>
    rcases length_le_one_cases _ ha1 with hat | ⟨at', hat⟩
  · -- no tracks at all
    have hE := encode_eq_none t hvt hat
    have hD : Decoder.Decode (gesOf t.name (Encoder.extractFrameRate t) [] []) =
        ⟨t.name, []⟩ := by
      unfold Decoder.Decode gesOf
      simp only [List.any_nil, Bool.false_eq_true, if_neg, ite_false]
      rw [hname]
      rfl
    rw [decodeEncode, hE, Option.map_some', hD, hvt, hat]
    exact ⟨rfl, rfl, rfl, rfl, rfl, rfl, rfl⟩
  · -- audio only
    have hGa : GoodTrack at' := by
      refine htr at' ?_
      have hm : at' ∈ t.tracks.filter (fun tr => tr.kind == TrackKind.audio) := by
        rw [show t.tracks.filter (fun tr => tr.kind == TrackKind.audio) =
            t.audioTracks from rfl, hat]
        simp
      exact List.mem_of_mem_filter hm
    obtain ⟨r, hr⟩ : ∃ r : ℚ, Decoder.extractFrameRate
        ⟨Encoder.buildTimelineProperties,
          Encoder.buildTimelineMetadatas (Encoder.extractFrameRate t),
          [audioGTrack 0], []⟩ = r := ⟨_, rfl⟩
    have hdr : r ≠ 0 := by
      rw [← hr]
      exact ne_of_gt (decoder_rate_pos _)
    obtain ⟨alayer, id2, hAL, hviewA, hcountA, httA⟩ :=
      track_roundtrip r hdr 0 TrackTypeAudio 0 at' hGa
    have hE := encode_eq_audio t at' hvt hat alayer id2 hAL
    have hD : Decoder.Decode (gesOf t.name (Encoder.extractFrameRate t)
        [audioGTrack 0] [alayer]) =
        ⟨t.name, [⟨[], TrackKind.audio,
          Decoder.addClipsToTrack r 0 alayer.clips⟩]⟩ := by
      unfold Decoder.Decode gesOf Decoder.trackContent
      rw [hname]
      rw [show ([audioGTrack 0].any fun tr => tr.trackType == TrackTypeVideo) =
        false from rfl]
      rw [show ([audioGTrack 0].any fun tr => tr.trackType == TrackTypeAudio) =
        true from rfl]
      simp only [if_true, if_false, Bool.false_eq_true, List.map_cons, List.map_nil,
        List.flatten]
      rw [show Decoder.extractFrameRate
        ⟨Encoder.buildTimelineProperties,
          Encoder.buildTimelineMetadatas (Encoder.extractFrameRate t),
          [audioGTrack 0], [alayer]⟩ =
        Decoder.extractFrameRate
        ⟨Encoder.buildTimelineProperties,
          Encoder.buildTimelineMetadatas (Encoder.extractFrameRate t),
          [audioGTrack 0], []⟩ from rfl, hr]
      rw [filter_all_true (l := alayer.clips) (fun gc hgc => by
        simp only [httA gc hgc]; rfl)]
      simp
    rw [decodeEncode, hE, Option.map_some', hD, hvt, hat]
    refine ⟨rfl, rfl, rfl, rfl, ?_, rfl, ?_⟩
    · show some [clipCount (Decoder.addClipsToTrack r 0 alayer.clips)] =
        some (List.map (fun tr => clipCount tr.children) [at'])
      rw [hcountA]
      rfl
    · show some [clipView 0 (Decoder.addClipsToTrack r 0 alayer.clips)] =
        some (List.map (fun tr => clipView 0 tr.children) [at'])
      rw [hviewA]
      rfl
  · -- video only
    have hGv : GoodTrack vt := by
      refine htr vt ?_
      have hm : vt ∈ t.tracks.filter (fun tr => tr.kind == TrackKind.video) := by
        rw [show t.tracks.filter (fun tr => tr.kind == TrackKind.video) =
            t.videoTracks from rfl, hvt]
        simp
      exact List.mem_of_mem_filter hm
    obtain ⟨r, hr⟩ : ∃ r : ℚ, Decoder.extractFrameRate
        ⟨Encoder.buildTimelineProperties,
          Encoder.buildTimelineMetadatas (Encoder.extractFrameRate t),
          [videoGTrack (Encoder.extractFrameRate t)], []⟩ = r := ⟨_, rfl⟩
    have hdr : r ≠ 0 := by
      rw [← hr]
      exact ne_of_gt (decoder_rate_pos _)
    obtain ⟨vlayer, id1, hVL, hviewV, hcountV, httV⟩ :=
      track_roundtrip r hdr 0 TrackTypeVideo 0 vt hGv
    have hE := encode_eq_video t vt hvt hat vlayer id1 hVL
    have hD : Decoder.Decode (gesOf t.name (Encoder.extractFrameRate t)
        [videoGTrack (Encoder.extractFrameRate t)] [vlayer]) =
        ⟨t.name, [⟨[], TrackKind.video,
          Decoder.addClipsToTrack r 0 vlayer.clips⟩]⟩ := by
      unfold Decoder.Decode gesOf Decoder.trackContent
      rw [hname]
      rw [show ([videoGTrack (Encoder.extractFrameRate t)].any
        fun tr => tr.trackType == TrackTypeVideo) = true from rfl]
      rw [show ([videoGTrack (Encoder.extractFrameRate t)].any
        fun tr => tr.trackType == TrackTypeAudio) = false from rfl]
      simp only [if_true, if_false, Bool.false_eq_true, List.map_cons, List.map_nil,
        List.flatten]
      rw [show Decoder.extractFrameRate
        ⟨Encoder.buildTimelineProperties,
          Encoder.buildTimelineMetadatas (Encoder.extractFrameRate t),
          [videoGTrack (Encoder.extractFrameRate t)], [vlayer]⟩ =
        Decoder.extractFrameRate
        ⟨Encoder.buildTimelineProperties,
          Encoder.buildTimelineMetadatas (Encoder.extractFrameRate t),
          [videoGTrack (Encoder.extractFrameRate t)], []⟩ from rfl, hr]
      rw [filter_all_true (l := vlayer.clips) (fun gc hgc => by
        simp only [httV gc hgc]; rfl)]
      simp
    rw [decodeEncode, hE, Option.map_some', hD, hvt, hat]
    refine ⟨rfl, rfl, rfl, ?_, rfl, ?_, rfl⟩
    · show some [clipCount (Decoder.addClipsToTrack r 0 vlayer.clips)] =
        some (List.map (fun tr => clipCount tr.children) [vt])
      rw [hcountV]
      rfl
    · show some [clipView 0 (Decoder.addClipsToTrack r 0 vlayer.clips)] =
        some (List.map (fun tr => clipView 0 tr.children) [vt])
      rw [hviewV]
      rfl
  · -- both kinds
    have hGv : GoodTrack vt := by
      refine htr vt ?_
      have hm : vt ∈ t.tracks.filter (fun tr => tr.kind == TrackKind.video) := by
        rw [show t.tracks.filter (fun tr => tr.kind == TrackKind.video) =
            t.videoTracks from rfl, hvt]
        simp
      exact List.mem_of_mem_filter hm
    have hGa : GoodTrack at' := by
      refine htr at' ?_
      have hm : at' ∈ t.tracks.filter (fun tr => tr.kind == TrackKind.audio) := by
        rw [show t.tracks.filter (fun tr => tr.kind == TrackKind.audio) =
            t.audioTracks from rfl, hat]
        simp
      exact List.mem_of_mem_filter hm
    obtain ⟨r, hr⟩ : ∃ r : ℚ, Decoder.extractFrameRate
        ⟨Encoder.buildTimelineProperties,
          Encoder.buildTimelineMetadatas (Encoder.extractFrameRate t),
          [videoGTrack (Encoder.extractFrameRate t), audioGTrack 1], []⟩ = r :=
      ⟨_, rfl⟩
    have hdr : r ≠ 0 := by
      rw [← hr]
      exact ne_of_gt (decoder_rate_pos _)
    obtain ⟨vlayer, id1, hVL, hviewV, hcountV, httV⟩ :=
      track_roundtrip r hdr 0 TrackTypeVideo 0 vt hGv
    obtain ⟨alayer, id2, hAL, hviewA, hcountA, httA⟩ :=
      track_roundtrip r hdr 1 TrackTypeAudio id1 at' hGa
    have hE := encode_eq_both t vt at' hvt hat vlayer alayer id1 id2 hVL hAL
    have hD : Decoder.Decode (gesOf t.name (Encoder.extractFrameRate t)
        [videoGTrack (Encoder.extractFrameRate t), audioGTrack 1]
        [vlayer, alayer]) =
        ⟨t.name,
          [⟨[], TrackKind.video,
            Decoder.addClipsToTrack r 0 vlayer.clips⟩,
          ⟨[], TrackKind.audio,
            Decoder.addClipsToTrack r 0 alayer.clips⟩]⟩ := by
      unfold Decoder.Decode gesOf Decoder.trackContent
      rw [hname]
      rw [show ([videoGTrack (Encoder.extractFrameRate t), audioGTrack 1].any
        fun tr => tr.trackType == TrackTypeVideo) = true from rfl]
      rw [show ([videoGTrack (Encoder.extractFrameRate t), audioGTrack 1].any
        fun tr => tr.trackType == TrackTypeAudio) = true from rfl]
      simp only [if_true, List.map_cons, List.map_nil, List.flatten]
      rw [show Decoder.extractFrameRate
        ⟨Encoder.buildTimelineProperties,
          Encoder.buildTimelineMetadatas (Encoder.extractFrameRate t),
          [videoGTrack (Encoder.extractFrameRate t), audioGTrack 1],
          [vlayer, alayer]⟩ =
        Decoder.extractFrameRate
        ⟨Encoder.buildTimelineProperties,
          Encoder.buildTimelineMetadatas (Encoder.extractFrameRate t),
          [videoGTrack (Encoder.extractFrameRate t), audioGTrack 1], []⟩ from rfl,
        hr]
      rw [filter_all_true (l := vlayer.clips)
        (p := fun gc => gc.trackTypes &&& TrackTypeVideo != 0) (fun gc hgc => by
        simp only [httV gc hgc]; rfl)]
      rw [filter_all_false (l := alayer.clips)
        (p := fun gc => gc.trackTypes &&& TrackTypeVideo != 0) (fun gc hgc => by
        simp only [httA gc hgc]; rfl)]
      rw [filter_all_true (l := alayer.clips)
        (p := fun gc => gc.trackTypes &&& TrackTypeAudio != 0) (fun gc hgc => by
        simp only [httA gc hgc]; rfl)]
      rw [filter_all_false (l := vlayer.clips)
        (p := fun gc => gc.trackTypes &&& TrackTypeAudio != 0) (fun gc hgc => by
        simp only [httV gc hgc]; rfl)]
      simp [Decoder.addClipsToTrack]
    rw [decodeEncode, hE, Option.map_some', hD, hvt, hat]
    refine ⟨rfl, rfl, rfl, ?_, ?_, ?_, ?_⟩
    · show some [clipCount (Decoder.addClipsToTrack r 0 vlayer.clips)] =
        some (List.map (fun tr => clipCount tr.children) [vt])
      rw [hcountV]
      rfl
    · show some [clipCount (Decoder.addClipsToTrack r 0 alayer.clips)] =
        some (List.map (fun tr => clipCount tr.children) [at'])
      rw [hcountA]
      rfl
    · show some [clipView 0 (Decoder.addClipsToTrack r 0 vlayer.clips)] =
        some (List.map (fun tr => clipView 0 tr.children) [vt])
      rw [hviewV]
      rfl
    · show some [clipView 0 (Decoder.addClipsToTrack r 0 alayer.clips)] =
        some (List.map (fun tr => clipView 0 tr.children) [at'])
      rw [hviewA]
      rfl

/-- A timeline with two video tracks, both within the original claim's
precondition (every clip — vacuously — an external reference). -/
def cxTwoVideo : OTimeline :=
  ⟨[], [⟨[], TrackKind.video, []⟩, ⟨[], TrackKind.video, []⟩]⟩

/-- Counterexample to C1 as stated: the encoder emits a single sink
track element per populated kind and the decoder rebuilds one source
track per kind, so a timeline with two video tracks decodes back with
one — the per-kind track count is not preserved. -/
theorem C1_counterexample :
    cxTwoVideo.videoTracks.length = 2 ∧
      (decodeEncode cxTwoVideo).map (fun s => s.videoTracks.length) = some 1 := by
  refine ⟨rfl, ?_⟩
  rfl

/-- A concrete good timeline: one video track holding one external clip. -/
def c1Clip : OClip :=
  ⟨strL ("shot"), some (MediaReference.external ⟨strL ("file:///m.mov")⟩),
    some ⟨⟨0, 1⟩, ⟨2, 1⟩⟩, none⟩

/-- The witness timeline for the amended round trip. -/
def c1Timeline : OTimeline :=
  ⟨strL ("Edit"), [⟨strL ("V1"), TrackKind.video, [Composable.clip c1Clip]⟩]⟩

/-- Witness for C1: the round trip at a one-track, one-clip timeline. -/
theorem C1_roundtrip_witness :
    GoodTimeline c1Timeline ∧
      (decodeEncode c1Timeline).map OTimeline.name = some c1Timeline.name ∧
      (decodeEncode c1Timeline).map
          (fun s => s.videoTracks.map (fun tr => clipView 0 tr.children)) =
        some (c1Timeline.videoTracks.map (fun tr => clipView 0 tr.children)) := by
  have hns : Encoder.toNanoseconds (⟨2, 1⟩ : RationalTime) = 2000000000 := by
    unfold Encoder.toNanoseconds RationalTime.toSeconds
    simp only
    rw [show ((2 : ℚ) / 1 * (GSTSecond : ℚ)) = ((2000000000 : ℕ) : ℚ) from by
      norm_num [GSTSecond]]
    rw [ratTrunc_natCast]
    rfl
  have hG : GoodTimeline c1Timeline := by
    refine ⟨⟨by decide, by decide⟩, by decide, by decide, ?_⟩
    intro tr htr
    have htr' : tr = ⟨strL ("V1"), TrackKind.video, [Composable.clip c1Clip]⟩ := by
      simpa [c1Timeline] using htr
    subst htr'
    refine ⟨?_, ?_⟩
    · intro child hchild
      have hc : child = Composable.clip c1Clip := by simpa using hchild
      subst hc
      exact ⟨⟨by decide, by decide, by decide⟩,
        ⟨⟨strL ("file:///m.mov")⟩, rfl, by decide⟩,
        ⟨⟨⟨0, 1⟩, ⟨2, 1⟩⟩, rfl⟩⟩
    · show (([Composable.clip c1Clip].map cursorStep)).sum < u64
      simp only [List.map_cons, List.map_nil, List.sum_cons, List.sum_nil]
      rw [show cursorStep (Composable.clip c1Clip) =
        Encoder.toNanoseconds (⟨2, 1⟩ : RationalTime) from rfl]
      rw [hns]
      norm_num [u64]
  exact ⟨hG, (C1_roundtrip c1Timeline hG).1,
    (C1_roundtrip c1Timeline hG).2.2.2.2.2.1⟩

end XGES
